import Mathlib

/-!
# smart_hive GPS driver (`HAL_GPS.c`): NMEA GPGGA decoding and line extraction

A shallow embedding of `src/HAL_GPS.c`.

* C strings and byte buffers are `List Nat` (one `Nat` per byte); a buffer is read as a
  C string up to its first zero byte (`cstr`).
* `double` values are rationals.  Every floating-point operation of the source goes through
  a rounding function `rnd : ℚ → ℚ` that the definitions take as a parameter: `fun x => x`
  gives exact arithmetic, and IEEE-754 rounding is any `rnd` of small relative error.
  Infinities, NaN, overflow and underflow are outside the model.
* `uint8_t` and `uint16_t` arithmetic is `Nat`/`Int` arithmetic with explicit `% 256` and
  `% 65536`.  The `int` of `parse_lat_lon` is the 32-bit two's complement `int` of the
  Cortex-M4 target: the product `degrees * 100` wraps modulo `2 ^ 32` (`wrapInt32`) and the
  cast of a `double` saturates (`doubleToInt`); out of range both are undefined in C.
* The file-scope and function-scope `static` variables are the fields of `GPS_State`.
* `Reachable` is the set of driver states that the public operations reach from program
  start; `pollRun` is a polling schedule against a DMA engine that writes a byte stream into
  the circular buffer; the `_checked` definitions are the same code with every array index
  tested.
-/

namespace HAL_GPS

/-! ## Configuration -/

/-- The capacity of `dma_buffer` and of the line accumulator: `#define GPS_BUFFER_SIZE 256`. -/
def GPS_BUFFER_SIZE : Nat := 256

/-! ## Data model -/

/-- Modelled from the spec: `GPS_Data_t` is declared in `gps.h`, which is not among the
sources.  The field names are the ones `HAL_GPS.c` assigns; the types follow the data model
of the specification (`valid: bool`, `utcTime: integer`, `fixQuality` and `numSatellites`:
unsigned small integers, the three others floating point). -/
structure GPS_Data_t where
  valid : Bool
  utc_time : Int
  fix_quality : Nat
  num_satellites : Nat
  altitude : ℚ
  latitude : ℚ
  longitude : ℚ
deriving DecidableEq, Repr

/-- The all-zero record: `static GPS_Data_t latest_data = {0}` and the `memset` of
`GPS_Init`. -/
def GPS_Data_t.zero : GPS_Data_t :=
  { valid := false, utc_time := 0, fix_quality := 0, num_satellites := 0,
    altitude := 0, latitude := 0, longitude := 0 }

/-! ## C library functions used by the driver -/

/-- The bytes of a string literal. -/
def bytes (s : String) : List Nat := s.toList.map Char.toNat

/-- The C string held in a buffer: the bytes before the first zero byte. -/
def cstr (buf : List Nat) : List Nat := buf.takeWhile (fun c => c != 0)

/-- The predicate `isspace` of the C locale: space, and `\t \n \v \f \r`. -/
def isspace (c : Nat) : Bool := c == 32 || (9 ≤ c && c ≤ 13)

/-- The predicate `isdigit`. -/
def isdigit (c : Nat) : Bool := 48 ≤ c && c ≤ 57

/-- The value of a run of decimal digits, most significant first. -/
def digitsVal (ds : List Nat) : Nat := ds.foldl (fun a d => 10 * a + (d - 48)) 0

/-- An optional sign in front of a number: whether it is `-`, and the rest. -/
def takeSign (s : List Nat) : Bool × List Nat :=
  match s with
  | 45 :: r => (true, r)
  | 43 :: r => (false, r)
  | _ => (false, s)

/-- The function `strtol(s, NULL, 10)` with a 32-bit `long`, as on the Cortex-M4 target:
leading white space, an optional sign, then decimal digits; a value outside the range of
`long` saturates at `LONG_MIN` or `LONG_MAX`. -/
def strtol10 (s : List Nat) : Int :=
  let sg := takeSign (s.dropWhile isspace)
  let v : Int := (digitsVal (sg.2.takeWhile isdigit) : Nat)
  let x : Int := if sg.1 then -v else v
  if x < -2147483648 then -2147483648 else if 2147483647 < x then 2147483647 else x

/-- The function `atol`. -/
def atol (s : List Nat) : Int := strtol10 s

/-- The function `atoi`: `(int) strtol(s, NULL, 10)`; `int` and `long` are both 32 bits. -/
def atoi (s : List Nat) : Int := strtol10 s

/-- The cast `(uint8_t) x` of an `int`. -/
def toUInt8 (x : Int) : Nat := (x % 256).toNat

/-- The exponent part of a decimal floating-point literal: `e` or `E`, an optional sign and
at least one digit; `0` when there is no well-formed exponent part. -/
def decExponent (s : List Nat) : Int :=
  match s with
  | c :: r =>
    if c == 101 || c == 69 then
      let sg := takeSign r
      let ds := sg.2.takeWhile isdigit
      if ds.isEmpty then 0
      else if sg.1 then -((digitsVal ds : Nat) : Int) else ((digitsVal ds : Nat) : Int)
    else 0
  | [] => 0

/-- The decimal floating-point literal at the start of `s`, as `strtod` scans it: leading
white space, an optional sign, digits with an optional fractional part, an optional
exponent.  The result is whether the sign is `-`, the digits of the integer and fractional
parts together, the number of fractional digits, and the exponent.  The hexadecimal, `inf`
and `nan` forms that `strtod` also accepts are not modelled (a rational holds neither of the
last two): on a token of one of these forms the model reads the value 0.  No NMEA numeric
field has these forms, and no theorem below gives the value of such a token. -/
def scanDecimal (s : List Nat) : Bool × List Nat × Nat × Int :=
  let sg := takeSign (s.dropWhile isspace)
  let ip := sg.2.takeWhile isdigit
  let r1 := sg.2.dropWhile isdigit
  let fp := match r1 with
    | 46 :: r => r.takeWhile isdigit
    | _ => []
  let r2 := match r1 with
    | 46 :: r => r.dropWhile isdigit
    | _ => r1
  (sg.1, ip ++ fp, fp.length, decExponent r2)

/-- The exact value that `strtod` reads at the start of `s`: the scanned literal, or `0`
when it has no digit. -/
def decimalValue (s : List Nat) : ℚ :=
  let p := scanDecimal s
  if p.2.1.isEmpty then 0
  else
    let m : ℚ := (digitsVal p.2.1 : ℚ) / (10 : ℚ) ^ p.2.2.1
    let v : ℚ :=
      if 0 ≤ p.2.2.2 then m * (10 : ℚ) ^ p.2.2.2.toNat else m / (10 : ℚ) ^ (-p.2.2.2).toNat
    if p.1 then -v else v

/-- The function `atof`: the decimal value read by `strtod`, rounded to a `double`. -/
def atof (rnd : ℚ → ℚ) (s : List Nat) : ℚ := rnd (decimalValue s)

/-- Truncation of a `double` towards zero, as a mathematical integer. -/
def truncToInt (x : ℚ) : Int := if 0 ≤ x then ⌊x⌋ else ⌈x⌉

/-- The cast `(int) x` of a `double` to the 32-bit `int` of the target: truncation towards
zero.  For a value outside the range of `int` the cast is undefined in C; the conversion
routine of the ARM run-time library saturates at `INT_MIN` and `INT_MAX`. -/
def doubleToInt (x : ℚ) : Int :=
  if truncToInt x < -2147483648 then -2147483648
  else if 2147483647 < truncToInt x then 2147483647
  else truncToInt x

/-- The value held by a 32-bit two's complement `int` after an arithmetic result `x`: signed
overflow, undefined in C, wraps modulo `2 ^ 32` in the multiply instruction of the target. -/
def wrapInt32 (x : Int) : Int := (x + 2147483648) % 4294967296 - 2147483648

/-- One call of `strtok` with the delimiter set `","` on the text still to be scanned:
`none` when only delimiters are left, else the token and the text after the delimiter that
ended it. -/
def strtok (s : List Nat) : Option (List Nat × List Nat) :=
  let s1 := s.dropWhile (fun c => c == 44)
  if s1.isEmpty then none
  else some (s1.takeWhile (fun c => c != 44), (s1.dropWhile (fun c => c != 44)).drop 1)

/-- The tokenizing loop of `parse_gpgga_line`,
`while (token != NULL && count < 15) { tokens[count++] = token; token = strtok(NULL, ","); }`:
the first argument is the number of free slots of `tokens`. -/
def tokenize : Nat → List Nat → List (List Nat)
  | 0, _ => []
  | n + 1, s =>
    match strtok s with
    | none => []
    | some (t, r) => t :: tokenize n r

/-! ## Parsing NMEA -/

/-- The function `parse_lat_lon`. -/
def parse_lat_lon (rnd : ℚ → ℚ) (str : List Nat) : ℚ :=
  if str.isEmpty then 0
  else
    let val := atof rnd str
    let degrees : Int := doubleToInt (rnd (val / 100))
    let minutes : ℚ := rnd (val - ((wrapInt32 (degrees * 100) : Int) : ℚ))
    rnd ((degrees : ℚ) + rnd (minutes / 60))

/-- The content of `temp` in `parse_gpgga_line` after the `strncpy`: the C string of `line`
cut at `sizeof(temp) - 1 = 255` bytes. -/
def lineText (line : List Nat) : List Nat := (cstr line).take (GPS_BUFFER_SIZE - 1)

/-- The token array filled by `parse_gpgga_line` from `line`: at most 15 tokens of `temp`. -/
def tokensOf (line : List Nat) : List (List Nat) := tokenize 15 (lineText line)

/-- The function `parse_gpgga_line`: the returned pair is the `bool` result and the record
`*out` after the call. -/
def parse_gpgga_line (rnd : ℚ → ℚ) (line : List Nat) (out : GPS_Data_t) :
    Bool × GPS_Data_t :=
  let tokens := tokensOf line
  let tok := fun (k : Nat) => tokens.getD k []
  if tokens.length < 10 then (false, out)
  else
    let fix_quality : Nat := if (tok 6).isEmpty then 0 else toUInt8 (atoi (tok 6))
    if fix_quality == 0 then (false, { out with valid := false })
    else
      let lat := parse_lat_lon rnd (tok 2)
      let lon := parse_lat_lon rnd (tok 4)
      (true,
        { valid := true
          utc_time := if (tok 1).isEmpty then 0 else atol (tok 1)
          fix_quality := fix_quality
          num_satellites := if (tok 7).isEmpty then 0 else toUInt8 (atoi (tok 7))
          altitude := if (tok 9).isEmpty then 0 else atof rnd (tok 9)
          latitude := if (tok 3).head? == some 83 then -lat else lat
          longitude := if (tok 5).head? == some 87 then -lon else lon })

/-- The comma-separated fields of a text in the sense of the NMEA grammar and of the
specification: the pieces between consecutive commas, empty ones included, so that a text
with `n` commas has `n + 1` fields. -/
def fieldsOf : List Nat → List (List Nat)
  | [] => [[]]
  | c :: s =>
    if c == 44 then [] :: fieldsOf s
    else
      match fieldsOf s with
      | f :: fs => (c :: f) :: fs
      | [] => [[c]]

/-- The example sentence of the specification. -/
def exampleLine : List Nat :=
  bytes "$GPGGA,123519,4807.038,N,01131.000,E,1,08,0.9,545.4,M,46.9,M,,*47"

/-! ## Driver state and public operations -/

/-- The `static` variables of `HAL_GPS.c` that the driver reads or writes: the file-scope
`buffer_head`, `latest_data` and `new_data_ready`, and the function-scope `last_tail`,
`line` and `line_pos` of `GPS_Update`.  The buffer `dma_buffer` is written by the DMA
engine and is an input of `GPS_Update`. -/
structure GPS_State where
  buffer_head : Nat
  latest_data : GPS_Data_t
  new_data_ready : Bool
  last_tail : Nat
  line : List Nat
  line_pos : Nat
deriving DecidableEq, Repr

/-- The state at program start, from the static initialisers: every variable zero. -/
def GPS_State.startup : GPS_State :=
  { buffer_head := 0, latest_data := GPS_Data_t.zero, new_data_ready := false,
    last_tail := 0, line := List.replicate GPS_BUFFER_SIZE 0, line_pos := 0 }

/-- The function `GPS_Init`.  The call `HAL_UART_Receive_DMA` restarts the circular
reception, which is seen by the driver only through later values of the DMA counter. -/
def GPS_Init (s : GPS_State) : GPS_State :=
  { s with buffer_head := 0, new_data_ready := false, latest_data := GPS_Data_t.zero }

/-- The function `get_dma_tail`: `counter` is the value of `__HAL_DMA_GET_COUNTER`, a 32-bit
register; the subtraction is done on `uint32_t` and the result narrowed to `uint16_t`. -/
def get_dma_tail (counter : Nat) : Nat :=
  ((GPS_BUFFER_SIZE + 4294967296 - counter % 4294967296) % 4294967296) % 65536

/-- The test `strncmp(a, b, n) == 0` on two buffers read as C strings. -/
def strncmp_eq : Nat → List Nat → List Nat → Bool
  | 0, _, _ => true
  | n + 1, a, b =>
    if a.headD 0 != b.headD 0 then false
    else if a.headD 0 == 0 then true
    else strncmp_eq n a.tail b.tail

/-- The body of the `for` loop of `GPS_Update` for one byte `c` of `dma_buffer`. -/
def GPS_Update_byte (rnd : ℚ → ℚ) (s : GPS_State) (c : Nat) : GPS_State :=
  if c == 10 then
    if 0 < s.line_pos && s.line.getD 0 0 == 36 then
      if strncmp_eq 6 s.line (bytes "$GPGGA") then
        let r := parse_gpgga_line rnd s.line s.latest_data
        { s with latest_data := r.2, new_data_ready := r.1 || s.new_data_ready,
                 line_pos := 0 }
      else { s with line_pos := 0 }
    else { s with line_pos := 0 }
  else if 32 ≤ c && c ≤ 126 && s.line_pos < GPS_BUFFER_SIZE - 1 then
    { s with line := s.line.set s.line_pos c, line_pos := s.line_pos + 1 }
  else s

/-- The upper bound `end` of the loop of `GPS_Update`:
`(tail > start) ? tail : tail + GPS_BUFFER_SIZE`, stored in a `uint16_t`. -/
def loopEnd (start tail : Nat) : Nat :=
  if start < tail then tail else (tail + GPS_BUFFER_SIZE) % 65536

/-- The offsets `i` visited by `for (uint16_t i = start; i < end; i++)`. -/
def span (start tail : Nat) : List Nat :=
  List.range' start (loopEnd start tail - start)

/-- The bytes that one call of `GPS_Update` reads from `dma_buffer`, in the order of the
loop: `dma_buffer[i % GPS_BUFFER_SIZE]` for `i` from `start` to `end - 1`. -/
def walked (start tail : Nat) (dma_buffer : List Nat) : List Nat :=
  (span start tail).map (fun i => dma_buffer.getD (i % GPS_BUFFER_SIZE) 0)

/-- The function `GPS_Update`, given the content of `dma_buffer` and the DMA counter that
`get_dma_tail` reads. -/
def GPS_Update (rnd : ℚ → ℚ) (s : GPS_State) (dma_buffer : List Nat) (counter : Nat) :
    GPS_State :=
  let tail := get_dma_tail counter
  if tail != s.last_tail then
    let s1 := (walked s.last_tail tail dma_buffer).foldl (GPS_Update_byte rnd) s
    { s1 with last_tail := tail % GPS_BUFFER_SIZE }
  else s

/-- The function `GPS_GetLatestData`: `data` is `none` for a `NULL` pointer, else the record
it points to; the result is the returned `bool`, the driver state and the caller's record
after the call. -/
def GPS_GetLatestData (s : GPS_State) (data : Option GPS_Data_t) :
    Bool × GPS_State × Option GPS_Data_t :=
  match data with
  | some _ =>
    if s.new_data_ready then (true, { s with new_data_ready := false }, some s.latest_data)
    else (false, s, data)
  | none => (false, s, none)

/-- A `dma_buffer` of `GPS_BUFFER_SIZE` bytes that holds `bs` from offset `start` on,
wrapping at the end of the buffer, and zero elsewhere. -/
def placeAt (start : Nat) (bs : List Nat) : List Nat :=
  (List.range GPS_BUFFER_SIZE).map
    (fun i => bs.getD ((i + GPS_BUFFER_SIZE - start % GPS_BUFFER_SIZE) % GPS_BUFFER_SIZE) 0)

/-- Whether the loop body, run in state `s` on the byte `c`, hands the accumulated line to
`parse_gpgga_line` and the decode succeeds. -/
def decodesAt (rnd : ℚ → ℚ) (s : GPS_State) (c : Nat) : Bool :=
  c == 10 && (0 < s.line_pos && s.line.getD 0 0 == 36) &&
    strncmp_eq 6 s.line (bytes "$GPGGA") && (parse_gpgga_line rnd s.line s.latest_data).1

/-- A sequence of `GPS_Update` calls, each with the buffer content and the DMA counter it
finds. -/
def runUpdates (rnd : ℚ → ℚ) (s : GPS_State) (us : List (List Nat × Nat)) : GPS_State :=
  us.foldl (fun st u => GPS_Update rnd st u.1 u.2) s

/-- Whether a call of `GPS_Update` in state `s` reads no line terminator. -/
def quietUpdate (s : GPS_State) (dma_buffer : List Nat) (counter : Nat) : Bool :=
  get_dma_tail counter == s.last_tail ||
    (walked s.last_tail (get_dma_tail counter) dma_buffer).all (fun c => c != 10)

/-- Whether none of the calls of a sequence of `GPS_Update` calls, started in state `s`,
reads a line terminator. -/
def quietRun (rnd : ℚ → ℚ) : GPS_State → List (List Nat × Nat) → Bool
  | _, [] => true
  | s, u :: us => quietUpdate s u.1 u.2 && quietRun rnd (GPS_Update rnd s u.1 u.2) us

/-! ## Inputs used in the examples -/

/-- A sentence whose fix-quality field is the number 256. -/
def line256 : List Nat :=
  bytes "$GPGGA,123519,4807.038,N,01131.000,E,256,08,0.9,545.4,M,46.9,M,,*47"

/-- The example sentence of the specification with its field 8 (horizontal dilution) left
empty. -/
def emptyHdopLine : List Nat :=
  bytes "$GPGGA,123519,4807.038,N,01131.000,E,1,08,,545.4,M,46.9,M,,*47"

/-- The no-fix example sentence of the specification. -/
def noFixLine : List Nat := bytes "$GPGGA,123519,,,,,,0,,,,,,,,*66"

/-- A fix as a successful decode leaves it. -/
def someFix : GPS_Data_t :=
  { valid := true, utc_time := 123519, fix_quality := 1, num_satellites := 8,
    altitude := 545, latitude := 48, longitude := 11 }

/-- A sentence with ten non-empty fields that reports fix quality 0. -/
def zeroFixLine : List Nat :=
  bytes "$GPGGA,123519,4807.038,N,01131.000,E,0,08,0.9,545.4,M,46.9,M,,*47"

/-- The driver state after three bytes `abc` have been read from offset 0. -/
def afterAbc : GPS_State :=
  GPS_Update (fun y => y) GPS_State.startup (placeAt 0 (bytes "abc")) (256 - 3)

/-- The driver state after the bytes `XGPGGA,1,2,3,4,5,1,7,8,9`, a line terminator and `$`
have been read from offset 0. -/
def afterDollar : GPS_State :=
  GPS_Update (fun y => y) GPS_State.startup
    (placeAt 0 (bytes "XGPGGA,1,2,3,4,5,1,7,8,9\n$")) (256 - 26)

/-! ## Reachable driver states -/

/-- The driver states that the public operations can reach from program start, whatever the
DMA engine has put in `dma_buffer` and in its counter. -/
inductive Reachable (rnd : ℚ → ℚ) : GPS_State → Prop
  | startup : Reachable rnd GPS_State.startup
  | init (s : GPS_State) : Reachable rnd s → Reachable rnd (GPS_Init s)
  | update (s : GPS_State) (dma_buffer : List Nat) (counter : Nat) :
      Reachable rnd s → Reachable rnd (GPS_Update rnd s dma_buffer counter)
  | get (s : GPS_State) (data : Option GPS_Data_t) :
      Reachable rnd s → Reachable rnd (GPS_GetLatestData s data).2.1


/-- A sentence whose latitude field `4830` is followed by an absent hemisphere field. -/
def absentSignLine : List Nat := bytes "$GPGGA,1,4830,,S0930,E,1,3,4,5.5,x"

/-- The example sentence of the specification moved to the southern and western
hemispheres. -/
def southWestLine : List Nat :=
  bytes "$GPGGA,123519,4807.038,S,01131.000,W,1,08,0.9,545.4,M,46.9,M,,*47"

/-- The driver state after the example sentence, its line terminator and the eight bytes
`$GPGGA,9` have been read from offset 0. -/
def afterShortLine : GPS_State :=
  GPS_Update (fun y => y) GPS_State.startup
    (placeAt 0 (exampleLine ++ 10 :: bytes "$GPGGA,9")) (256 - 74)

/-- The driver state after the example sentence and a sentence that reports fix quality 0,
each with its line terminator, have been read from offset 0 after `GPS_Init`. -/
def afterFixLost : GPS_State :=
  GPS_Update (fun y => y) (GPS_Init GPS_State.startup)
    (placeAt 0 (exampleLine ++ 10 :: (zeroFixLine ++ [10]))) (256 - 132)


/-! ## The DMA engine and a polling schedule -/

/-- The DMA engine in circular mode writes the bytes `bs` into `dma_buffer` from offset
`pos` on, wrapping at the end of the buffer. -/
def dmaWrite (dma_buffer : List Nat) (pos : Nat) : List Nat → List Nat
  | [] => dma_buffer
  | b :: bs => dmaWrite (dma_buffer.set (pos % GPS_BUFFER_SIZE) b) (pos + 1) bs

/-- The DMA counter (elements remaining before the wrap) when the write position is
`pos`. -/
def dmaCounter (pos : Nat) : Nat := GPS_BUFFER_SIZE - pos % GPS_BUFFER_SIZE

/-- A polling schedule: for each chunk of `chunks` in turn, the DMA engine writes the chunk
into the circular buffer and `GPS_Update` is then called once.  The arguments are the driver
state, the buffer content and the DMA write position. -/
def pollRun (rnd : ℚ → ℚ) : GPS_State → List Nat → Nat → List (List Nat) → GPS_State
  | s, _, _, [] => s
  | s, dma_buffer, pos, ch :: chs =>
    pollRun rnd
      (GPS_Update rnd s (dmaWrite dma_buffer pos ch) (dmaCounter (pos + ch.length)))
      (dmaWrite dma_buffer pos ch) ((pos + ch.length) % GPS_BUFFER_SIZE) chs

/-- A full buffer of 256 bytes: the example sentence, its line terminator and 190 spaces. -/
def fullChunk : List Nat := exampleLine ++ 10 :: List.replicate 190 32


/-! ## Array accesses with their bounds checked

The same code with every access to `dma_buffer`, `line` and `tokens` made through an index
test: the result is `none` as soon as an index is outside its array, or a token is read
that was never written. -/

/-- The write `tokens[count++] = token` into `char *tokens[15]`: `tokens` holds the `count`
entries written so far. -/
def pushToken (tokens : List (List Nat)) (token : List Nat) : Option (List (List Nat)) :=
  if tokens.length < 15 then some (tokens ++ [token]) else none

/-- The tokenizing loop of `parse_gpgga_line` with the write into `tokens` checked.  The
first argument bounds the number of loop tests; the result is `none` when it is used up. -/
def tokenize_checked : Nat → List Nat → List (List Nat) → Option (List (List Nat))
  | 0, _, _ => none
  | n + 1, s, tokens =>
    match strtok s with
    | none => some tokens
    | some (t, r) =>
      if tokens.length < 15 then (pushToken tokens t).bind (tokenize_checked n r)
      else some tokens

/-- The function `parse_gpgga_line` with every read of `tokens[k]` checked against the
number of tokens written. -/
def parse_gpgga_line_checked (rnd : ℚ → ℚ) (line : List Nat) (out : GPS_Data_t) :
    Option (Bool × GPS_Data_t) :=
  (tokenize_checked 16 (lineText line) []).bind fun tokens =>
    if tokens.length < 10 then some (false, out)
    else
      tokens[6]?.bind fun t6 =>
        let fix_quality : Nat := if t6.isEmpty then 0 else toUInt8 (atoi t6)
        if fix_quality == 0 then some (false, { out with valid := false })
        else
          tokens[1]?.bind fun t1 =>
          tokens[7]?.bind fun t7 =>
          tokens[9]?.bind fun t9 =>
          tokens[2]?.bind fun t2 =>
          tokens[3]?.bind fun t3 =>
          tokens[4]?.bind fun t4 =>
          tokens[5]?.bind fun t5 =>
            let lat := parse_lat_lon rnd t2
            let lon := parse_lat_lon rnd t4
            some (true,
              { valid := true
                utc_time := if t1.isEmpty then 0 else atol t1
                fix_quality := fix_quality
                num_satellites := if t7.isEmpty then 0 else toUInt8 (atoi t7)
                altitude := if t9.isEmpty then 0 else atof rnd t9
                latitude := if t3.head? == some 83 then -lat else lat
                longitude := if t5.head? == some 87 then -lon else lon })

/-- The body of the `for` loop of `GPS_Update` at offset `i`, with the read of
`dma_buffer[i % GPS_BUFFER_SIZE]`, the read of `line[0]` and the write of `line[line_pos]`
checked. -/
def GPS_Update_step_checked (rnd : ℚ → ℚ) (dma_buffer : List Nat) (s : GPS_State) (i : Nat) :
    Option GPS_State :=
  match dma_buffer[i % GPS_BUFFER_SIZE]? with
  | none => none
  | some c =>
    if c == 10 then
      if 0 < s.line_pos then
        match s.line[0]? with
        | none => none
        | some l0 =>
          if l0 == 36 then
            if strncmp_eq 6 s.line (bytes "$GPGGA") then
              match parse_gpgga_line_checked rnd s.line s.latest_data with
              | none => none
              | some r =>
                some { s with latest_data := r.2, new_data_ready := r.1 || s.new_data_ready,
                              line_pos := 0 }
            else some { s with line_pos := 0 }
          else some { s with line_pos := 0 }
      else some { s with line_pos := 0 }
    else if 32 ≤ c && c ≤ 126 && s.line_pos < GPS_BUFFER_SIZE - 1 then
      if s.line_pos < s.line.length then
        some { s with line := s.line.set s.line_pos c, line_pos := s.line_pos + 1 }
      else none
    else some s

/-- The loop of `GPS_Update` over the offsets `is`, with the accesses checked. -/
def GPS_Update_loop_checked (rnd : ℚ → ℚ) (dma_buffer : List Nat) :
    GPS_State → List Nat → Option GPS_State
  | s, [] => some s
  | s, i :: is =>
    match GPS_Update_step_checked rnd dma_buffer s i with
    | none => none
    | some s1 => GPS_Update_loop_checked rnd dma_buffer s1 is

/-- The function `GPS_Update` with the array accesses checked. -/
def GPS_Update_checked (rnd : ℚ → ℚ) (s : GPS_State) (dma_buffer : List Nat) (counter : Nat) :
    Option GPS_State :=
  let tail := get_dma_tail counter
  if tail != s.last_tail then
    (GPS_Update_loop_checked rnd dma_buffer s (span s.last_tail tail)).map
      fun s1 => { s1 with last_tail := tail % GPS_BUFFER_SIZE }
  else some s


/-! ## NMEA coordinate encoding -/

/-- The `w` low decimal digits of `n` in ASCII, most significant first, zero padded. -/
def fixedDigits : Nat → Nat → List Nat
  | 0, _ => []
  | w + 1, n => (48 + n / 10 ^ w % 10) :: fixedDigits w n

/-- The NMEA encoding `DDMM.mmmm` of `D` degrees and `m / 10 ^ p` minutes: the number
`100 * D + m / 10 ^ p` written in decimal with `w` digits before the point and `p` digits
after it. -/
def encodeDDMM (w p D m : Nat) : List Nat :=
  fixedDigits w (100 * D + m / 10 ^ p) ++ 46 :: fixedDigits p (m % 10 ^ p)


/-! ## Theorems -/

set_option maxRecDepth 1000000

/-! ### Sentence decoder -/

theorem tokensOf_exampleLine :
    tokensOf exampleLine =
      [bytes "$GPGGA", bytes "123519", bytes "4807.038", bytes "N", bytes "01131.000",
       bytes "E", bytes "1", bytes "08", bytes "0.9", bytes "545.4", bytes "M", bytes "46.9",
       bytes "M", bytes "*47"] := by
  decide

theorem decimalValue_lat : decimalValue (bytes "4807.038") = 4807038 / 1000 := by
  have h : scanDecimal (bytes "4807.038") = (false, bytes "4807038", 3, 0) := by decide
  have hd : digitsVal (bytes "4807038") = 4807038 := by decide
  simp only [decimalValue, h, hd]
  norm_num [bytes]

theorem decimalValue_lon : decimalValue (bytes "01131.000") = 1131 := by
  have h : scanDecimal (bytes "01131.000") = (false, bytes "01131000", 3, 0) := by decide
  have hd : digitsVal (bytes "01131000") = 1131000 := by decide
  simp only [decimalValue, h, hd]
  norm_num [bytes]

theorem decimalValue_alt : decimalValue (bytes "545.4") = 5454 / 10 := by
  have h : scanDecimal (bytes "545.4") = (false, bytes "5454", 1, 0) := by decide
  have hd : digitsVal (bytes "5454") = 5454 := by decide
  simp only [decimalValue, h, hd]
  norm_num [bytes]

theorem parse_exampleLine (rnd : ℚ → ℚ) (out : GPS_Data_t) :
    parse_gpgga_line rnd exampleLine out =
      (true,
        { valid := true, utc_time := 123519, fix_quality := 1, num_satellites := 8,
          altitude := rnd (5454 / 10),
          latitude := parse_lat_lon rnd (bytes "4807.038"),
          longitude := parse_lat_lon rnd (bytes "01131.000") }) := by
  have h6 : toUInt8 (atoi (bytes "1")) = 1 := by decide
  have h7 : toUInt8 (atoi (bytes "08")) = 8 := by decide
  have h1 : atol (bytes "123519") = 123519 := by decide
  have e1 : (bytes "1").isEmpty = false := by decide
  have e2 : (bytes "08").isEmpty = false := by decide
  have e3 : (bytes "123519").isEmpty = false := by decide
  have e4 : (bytes "545.4").isEmpty = false := by decide
  have e5 : ((bytes "N").head? == some 83) = false := by decide
  have e6 : ((bytes "E").head? == some 87) = false := by decide
  simp [parse_gpgga_line, tokensOf_exampleLine, h6, h7, h1, e1, e2, e3, e4, e5, e6, atof, decimalValue_alt]

/-- A rounding of relative error at most `2⁻²⁴` moves a value of `[lo, hi]`, `0 ≤ lo`, by at
most `hi / 2²⁴`. -/
theorem rnd_near {rnd : ℚ → ℚ} (hr : ∀ x, |rnd x - x| ≤ |x| / 2 ^ 24) (x lo hi : ℚ)
    (h0 : 0 ≤ lo) (h1 : lo ≤ x) (h2 : x ≤ hi) :
    x - hi / 2 ^ 24 ≤ rnd x ∧ rnd x ≤ x + hi / 2 ^ 24 := by
  have hx : |x| = x := abs_of_nonneg (le_trans h0 h1)
  have h := hr x
  rw [hx] at h
  have hle : x / 2 ^ 24 ≤ hi / 2 ^ 24 := by
    apply div_le_div_of_nonneg_right h2
    positivity
  have h' := abs_le.mp (le_trans h hle)
  constructor <;> linarith [h'.1, h'.2]

theorem truncToInt_eq {x : ℚ} {z : Int} (h0 : 0 ≤ x) (h1 : (z : ℚ) ≤ x) (h2 : x < z + 1) :
    truncToInt x = z := by
  simp only [truncToInt, h0, if_true]
  exact Int.floor_eq_iff.mpr ⟨h1, h2⟩

/-- The cast of a `double` whose truncation fits an `int` is that truncation. -/
theorem doubleToInt_eq {x : ℚ} {z : Int} (h0 : 0 ≤ x) (h1 : (z : ℚ) ≤ x) (h2 : x < z + 1)
    (hz1 : -2147483648 ≤ z) (hz2 : z ≤ 2147483647) : doubleToInt x = z := by
  have ht : truncToInt x = z := truncToInt_eq h0 h1 h2
  unfold doubleToInt
  rw [ht]
  simp only [Int.not_lt.mpr hz1, Int.not_lt.mpr hz2, if_false]

/-- A product that fits an `int` does not wrap. -/
theorem wrapInt32_eq (x : Int) (h1 : -2147483648 ≤ x) (h2 : x ≤ 2147483647) :
    wrapInt32 x = x := by
  unfold wrapInt32
  omega

/-- The coordinate decode of a field whose decimal value `v` lies in `[100 d, 100 d + 60]`
with `1 ≤ d ≤ 180`, under a rounding of relative error at most `2⁻²⁴`: the result is within
`10⁻⁴/2` of `d + (v - 100 d) / 60`. -/
theorem parse_lat_lon_near {rnd : ℚ → ℚ} (hr : ∀ x, |rnd x - x| ≤ |x| / 2 ^ 24)
    (str : List Nat) (hne : str.isEmpty = false) (d : Int) (hd1 : 1 ≤ d) (hd2 : d ≤ 180)
    (hv1 : (d : ℚ) * 100 + 1 / 100 ≤ decimalValue str)
    (hv2 : decimalValue str ≤ (d : ℚ) * 100 + 60) :
    |parse_lat_lon rnd str - ((d : ℚ) + (decimalValue str - d * 100) / 60)| ≤ 1 / 20000 := by
  have hdq1 : (1 : ℚ) ≤ d := by exact_mod_cast hd1
  have hdq2 : (d : ℚ) ≤ 180 := by exact_mod_cast hd2
  set v := decimalValue str with hv
  -- val = atof(str)
  obtain ⟨a1, a2⟩ := rnd_near hr v 0 18060 le_rfl (by linarith) (by linarith)
  set val := rnd v with hval
  -- val / 100
  obtain ⟨b1, b2⟩ := rnd_near hr (val / 100) 0 181
    le_rfl (by norm_num at a1 a2 ⊢; linarith) (by norm_num at a1 a2 ⊢; linarith)
  have hdeg : doubleToInt (rnd (val / 100)) = d := by
    apply doubleToInt_eq
    · norm_num at a1 a2 b1 b2 ⊢; linarith
    · norm_num at a1 a2 b1 b2 ⊢; linarith
    · norm_num at a1 a2 b1 b2 ⊢; linarith
    · omega
    · omega
  have hwrap : wrapInt32 (d * 100) = d * 100 := wrapInt32_eq _ (by omega) (by omega)
  -- minutes
  obtain ⟨c1, c2⟩ := rnd_near hr (val - ((d * 100 : Int) : ℚ)) 0 61
    le_rfl (by push_cast; norm_num at a1 a2 ⊢; linarith) (by push_cast; norm_num at a1 a2 ⊢; linarith)
  set minutes := rnd (val - ((d * 100 : Int) : ℚ)) with hmin
  obtain ⟨e1, e2⟩ := rnd_near hr (minutes / 60) 0 2
    le_rfl (by push_cast at c1 c2; norm_num at a1 a2 c1 c2 ⊢; linarith)
    (by push_cast at c1 c2; norm_num at a1 a2 c1 c2 ⊢; linarith)
  set m60 := rnd (minutes / 60) with hm60
  obtain ⟨f1, f2⟩ := rnd_near hr ((d : ℚ) + m60) 0 183
    le_rfl (by push_cast at c1 c2; norm_num at a1 a2 c1 c2 e1 e2 ⊢; linarith)
    (by push_cast at c1 c2; norm_num at a1 a2 c1 c2 e1 e2 ⊢; linarith)
  have hres : parse_lat_lon rnd str = rnd ((d : ℚ) + m60) := by
    simp only [parse_lat_lon, hne, atof, ← hv, ← hval, hdeg, hwrap]
    simp [hmin, hm60]
  rw [hres, abs_le]
  push_cast at c1 c2
  norm_num at a1 a2 c1 c2 e1 e2 f1 f2 ⊢
  constructor <;> linarith

/-- C1. Decoding the example sentence of the specification returns `true` and leaves
`valid = true`, `utcTime = 123519`, `fixQuality = 1`, `numSatellites = 8`, and the altitude,
latitude and longitude within `10⁻⁴` of `545.4`, `48 + 7.038/60` and `11 + 31/60`, for every
floating-point rounding of relative error at most `2⁻²⁴` (IEEE `double` and `float` both
are), whatever the output record held before. -/
theorem parse_gpgga_line_example (rnd : ℚ → ℚ) (hr : ∀ x, |rnd x - x| ≤ |x| / 2 ^ 24)
    (out : GPS_Data_t) :
    (parse_gpgga_line rnd exampleLine out).1 = true ∧
    (parse_gpgga_line rnd exampleLine out).2.valid = true ∧
    (parse_gpgga_line rnd exampleLine out).2.utc_time = 123519 ∧
    (parse_gpgga_line rnd exampleLine out).2.fix_quality = 1 ∧
    (parse_gpgga_line rnd exampleLine out).2.num_satellites = 8 ∧
    |(parse_gpgga_line rnd exampleLine out).2.altitude - 545.4| ≤ 1 / 10000 ∧
    |(parse_gpgga_line rnd exampleLine out).2.latitude - (48 + 7.038 / 60)| ≤ 1 / 10000 ∧
    |(parse_gpgga_line rnd exampleLine out).2.longitude - (11 + 31 / 60)| ≤ 1 / 10000 := by
  rw [parse_exampleLine]
  refine ⟨rfl, rfl, rfl, rfl, rfl, ?_, ?_, ?_⟩
  · obtain ⟨a1, a2⟩ := rnd_near hr (5454 / 10 : ℚ) 0 546
      le_rfl (by norm_num) (by norm_num)
    show |rnd (5454 / 10) - 545.4| ≤ 1 / 10000
    rw [abs_le]
    norm_num at a1 a2 ⊢
    constructor <;> linarith
  · have h := parse_lat_lon_near hr (bytes "4807.038") (by decide) 48 (by norm_num)
      (by norm_num) (by rw [decimalValue_lat]; norm_num) (by rw [decimalValue_lat]; norm_num)
    rw [decimalValue_lat] at h
    show |parse_lat_lon rnd (bytes "4807.038") - (48 + 7.038 / 60)| ≤ 1 / 10000
    rw [abs_le] at h ⊢
    norm_num at h ⊢
    constructor <;> linarith [h.1, h.2]
  · have h := parse_lat_lon_near hr (bytes "01131.000") (by decide) 11 (by norm_num)
      (by norm_num) (by rw [decimalValue_lon]; norm_num) (by rw [decimalValue_lon]; norm_num)
    rw [decimalValue_lon] at h
    show |parse_lat_lon rnd (bytes "01131.000") - (11 + 31 / 60)| ≤ 1 / 10000
    rw [abs_le] at h ⊢
    norm_num at h ⊢
    constructor <;> linarith [h.1, h.2]

/-- Witness of C1: exact arithmetic is a rounding of relative error `0`. -/
theorem parse_gpgga_line_example_witness :
    (∀ x : ℚ, |(fun y : ℚ => y) x - x| ≤ |x| / 2 ^ 24) ∧
    (parse_gpgga_line (fun y => y) exampleLine GPS_Data_t.zero).1 = true ∧
    (parse_gpgga_line (fun y => y) exampleLine GPS_Data_t.zero).2.valid = true ∧
    (parse_gpgga_line (fun y => y) exampleLine GPS_Data_t.zero).2.utc_time = 123519 ∧
    (parse_gpgga_line (fun y => y) exampleLine GPS_Data_t.zero).2.fix_quality = 1 ∧
    (parse_gpgga_line (fun y => y) exampleLine GPS_Data_t.zero).2.num_satellites = 8 ∧
    |(parse_gpgga_line (fun y => y) exampleLine GPS_Data_t.zero).2.altitude - 545.4|
      ≤ 1 / 10000 ∧
    |(parse_gpgga_line (fun y => y) exampleLine GPS_Data_t.zero).2.latitude
      - (48 + 7.038 / 60)| ≤ 1 / 10000 ∧
    |(parse_gpgga_line (fun y => y) exampleLine GPS_Data_t.zero).2.longitude
      - (11 + 31 / 60)| ≤ 1 / 10000 :=
  ⟨fun x => by simp; positivity,
   parse_gpgga_line_example (fun y => y) (fun x => by simp; positivity) GPS_Data_t.zero⟩
theorem fieldsOf_ne_nil (s : List Nat) : fieldsOf s ≠ [] := by
  cases s with
  | nil => simp [fieldsOf]
  | cons c s =>
    simp only [fieldsOf]
    split
    · simp
    · split <;> simp

/-- The first field is the text before the first comma; the other fields are the fields of
the text after that comma, if there is one. -/
theorem fieldsOf_eq (s : List Nat) :
    fieldsOf s = s.takeWhile (fun c => c != 44) ::
      (match s.dropWhile (fun c => c != 44) with
       | [] => []
       | _ :: r => fieldsOf r) := by
  induction s with
  | nil => simp [fieldsOf]
  | cons c s ih =>
    by_cases hc : c = 44
    · subst hc
      simp [fieldsOf, List.takeWhile, List.dropWhile]
    · have hc' : (c != 44) = true := by simpa using hc
      have hc'' : (c == 44) = false := by simpa using hc
      simp only [fieldsOf, hc'', List.takeWhile, List.dropWhile, hc']
      rw [ih]
      simp

/-- When the first `k` fields of a text are all non-empty, the first `k` tokens cut by
`strtok` are exactly these fields. -/
theorem tokenize_take_eq_fields (k : Nat) :
    ∀ (n : Nat) (s : List Nat), k ≤ n → k ≤ (fieldsOf s).length →
      (∀ i, i < k → (fieldsOf s).getD i [] ≠ []) →
      (tokenize n s).take k = (fieldsOf s).take k := by
  induction k with
  | zero => intro n s _ _ _; simp
  | succ k ih =>
    intro n s hn hlen hne
    obtain ⟨n, rfl⟩ : ∃ m, n = m + 1 := ⟨n - 1, by omega⟩
    have h0 := hne 0 (by omega)
    rw [fieldsOf_eq] at h0 hlen hne ⊢
    simp only [List.getD_cons_zero] at h0
    -- the text does not start with a comma
    have hdw : s.dropWhile (fun c => c == 44) = s := by
      cases s with
      | nil => rfl
      | cons c s =>
        by_cases hc : c = 44
        · subst hc; simp [List.takeWhile] at h0
        · have hc'' : (c == 44) = false := by simpa using hc
          simp [List.dropWhile, hc'']
    have hsne : s.isEmpty = false := by
      cases s with
      | nil => simp at h0
      | cons c s => rfl
    simp only [tokenize, strtok, hdw, hsne]
    simp only [List.take_succ_cons, Bool.false_eq_true, if_false]
    congr 1
    cases hd : s.dropWhile (fun c => c != 44) with
    | nil =>
      rw [hd] at hlen
      simp at hlen
      subst hlen
      simp
    | cons c r =>
      rw [hd] at hlen hne
      simp only [List.drop_succ_cons, List.drop_zero]
      apply ih n r (by omega) (by simpa using hlen)
      intro i hi
      have := hne (i + 1) (by omega)
      simpa using this

theorem tokensOf_eq_fields (line : List Nat)
    (hlen : 10 ≤ (fieldsOf (lineText line)).length)
    (hne : ∀ k, k < 10 → (fieldsOf (lineText line)).getD k [] ≠ []) :
    10 ≤ (tokensOf line).length ∧
      ∀ k, k < 10 → (tokensOf line).getD k [] = (fieldsOf (lineText line)).getD k [] := by
  have ht := tokenize_take_eq_fields 10 15 (lineText line) (by omega) hlen hne
  have hl : 10 ≤ (tokensOf line).length := by
    have := congrArg List.length ht
    simp only [List.length_take] at this
    unfold tokensOf
    omega
  refine ⟨hl, fun k hk => ?_⟩
  have h1 : (tokensOf line).getD k [] = ((tokensOf line).take 10).getD k [] := by
    simp [List.getD_eq_getElem?_getD, List.getElem?_take, hk]
  have h2 : (fieldsOf (lineText line)).getD k [] =
      ((fieldsOf (lineText line)).take 10).getD k [] := by
    simp [List.getD_eq_getElem?_getD, List.getElem?_take, hk]
  rw [h1, h2]
  unfold tokensOf
  rw [ht]


/-- The sentence `line256` has 15 comma-separated fields, its field 6 is the number 256, and
`parse_gpgga_line` returns `false`: the fix quality is kept in a `uint8_t`, where 256
is 0. -/
theorem parse_gpgga_line_fix_256 :
    10 ≤ (fieldsOf (lineText line256)).length ∧
    (fieldsOf (lineText line256)).getD 6 [] = bytes "256" ∧
    0 < atoi (bytes "256") ∧
    (parse_gpgga_line (fun y => y) line256 GPS_Data_t.zero).1 = false := by
  decide

/-- The token mapping on sentences without an empty field among the first ten. For every
line whose first ten comma-separated fields (within the 255 bytes that `parse_gpgga_line`
copies) are all non-empty and whose field 6 has an integer value that is non-zero modulo
256, `parse_gpgga_line` returns `true` and sets `valid = true`,
`utcTime` to the integer value of field 1, `fixQuality` and `numSatellites` to the integer
values of fields 6 and 7 modulo 256, `altitude` to the value of field 9, and latitude and
longitude to the coordinate decodes of fields 2 and 4, negated when field 3 starts with `S`
and field 5 with `W`. -/
theorem parse_gpgga_line_fields (rnd : ℚ → ℚ) (line : List Nat) (out : GPS_Data_t)
    (hlen : 10 ≤ (fieldsOf (lineText line)).length)
    (hne : ∀ k, k < 10 → (fieldsOf (lineText line)).getD k [] ≠ [])
    (hfix : toUInt8 (atoi ((fieldsOf (lineText line)).getD 6 [])) ≠ 0) :
    parse_gpgga_line rnd line out =
      (true,
        { valid := true
          utc_time := atol ((fieldsOf (lineText line)).getD 1 [])
          fix_quality := toUInt8 (atoi ((fieldsOf (lineText line)).getD 6 []))
          num_satellites := toUInt8 (atoi ((fieldsOf (lineText line)).getD 7 []))
          altitude := atof rnd ((fieldsOf (lineText line)).getD 9 [])
          latitude :=
            if ((fieldsOf (lineText line)).getD 3 []).head? = some 83
            then -parse_lat_lon rnd ((fieldsOf (lineText line)).getD 2 [])
            else parse_lat_lon rnd ((fieldsOf (lineText line)).getD 2 [])
          longitude :=
            if ((fieldsOf (lineText line)).getD 5 []).head? = some 87
            then -parse_lat_lon rnd ((fieldsOf (lineText line)).getD 4 [])
            else parse_lat_lon rnd ((fieldsOf (lineText line)).getD 4 []) }) := by
  obtain ⟨hl, hk⟩ := tokensOf_eq_fields line hlen hne
  have e : ∀ k, k < 10 → ((fieldsOf (lineText line)).getD k []).isEmpty = false := by
    intro k h
    have := hne k h
    cases hf : (fieldsOf (lineText line)).getD k [] with
    | nil => exact absurd hf this
    | cons a b => rfl
  have hnl : ¬ (tokensOf line).length < 10 := by omega
  simp only [parse_gpgga_line, hnl, if_false, hk 1 (by omega), hk 2 (by omega),
    hk 3 (by omega), hk 4 (by omega), hk 5 (by omega), hk 6 (by omega), hk 7 (by omega),
    hk 9 (by omega), e 1 (by omega), e 6 (by omega), e 7 (by omega), e 9 (by omega)]
  have hq : (toUInt8 (atoi ((fieldsOf (lineText line)).getD 6 [])) == 0) = false := by
    simpa using hfix
  simp only [hq, Bool.false_eq_true, if_false, beq_iff_eq]

/-- The token mapping at the example sentence of the specification. -/
theorem parse_gpgga_line_fields_witness :
    parse_gpgga_line (fun y => y) exampleLine GPS_Data_t.zero =
      (true,
        { valid := true
          utc_time := atol ((fieldsOf (lineText exampleLine)).getD 1 [])
          fix_quality := toUInt8 (atoi ((fieldsOf (lineText exampleLine)).getD 6 []))
          num_satellites := toUInt8 (atoi ((fieldsOf (lineText exampleLine)).getD 7 []))
          altitude := atof (fun y => y) ((fieldsOf (lineText exampleLine)).getD 9 [])
          latitude :=
            if ((fieldsOf (lineText exampleLine)).getD 3 []).head? = some 83
            then -parse_lat_lon (fun y => y) ((fieldsOf (lineText exampleLine)).getD 2 [])
            else parse_lat_lon (fun y => y) ((fieldsOf (lineText exampleLine)).getD 2 [])
          longitude :=
            if ((fieldsOf (lineText exampleLine)).getD 5 []).head? = some 87
            then -parse_lat_lon (fun y => y) ((fieldsOf (lineText exampleLine)).getD 4 [])
            else parse_lat_lon (fun y => y) ((fieldsOf (lineText exampleLine)).getD 4 []) }) :=
  parse_gpgga_line_fields (fun y => y) exampleLine GPS_Data_t.zero (by decide) (by decide)
    (by decide)


/-- C2, the code at the failing input. The sentence `emptyHdopLine` has 15 comma-separated
fields, its field 6 is `1` and its field 9 is `545.4`, but field 8 is empty: `strtok` skips
it, only 13 tokens are found, token 9 is the unit `M`, and `parse_gpgga_line` returns `true`
with altitude 0 instead of 545.4. -/
theorem parse_gpgga_line_empty_field :
    (fieldsOf (lineText emptyHdopLine)).length = 15 ∧
    (fieldsOf (lineText emptyHdopLine)).getD 6 [] = bytes "1" ∧
    (fieldsOf (lineText emptyHdopLine)).getD 8 [] = [] ∧
    (fieldsOf (lineText emptyHdopLine)).getD 9 [] = bytes "545.4" ∧
    decimalValue (bytes "545.4") = 5454 / 10 ∧
    tokensOf emptyHdopLine =
      [bytes "$GPGGA", bytes "123519", bytes "4807.038", bytes "N", bytes "01131.000",
       bytes "E", bytes "1", bytes "08", bytes "545.4", bytes "M", bytes "46.9", bytes "M",
       bytes "*47"] ∧
    (parse_gpgga_line (fun y => y) emptyHdopLine GPS_Data_t.zero).1 = true ∧
    (parse_gpgga_line (fun y => y) emptyHdopLine GPS_Data_t.zero).2.altitude = 0 := by
  have h : tokensOf emptyHdopLine =
      [bytes "$GPGGA", bytes "123519", bytes "4807.038", bytes "N", bytes "01131.000",
       bytes "E", bytes "1", bytes "08", bytes "545.4", bytes "M", bytes "46.9", bytes "M",
       bytes "*47"] := by decide
  have h6 : toUInt8 (atoi (bytes "1")) = 1 := by decide
  have e6 : (bytes "1").isEmpty = false := by decide
  have e9 : (bytes "M").isEmpty = false := by decide
  have hs : scanDecimal (bytes "M") = (false, [], 0, 0) := by decide
  have hm : decimalValue (bytes "M") = 0 := by simp [decimalValue, hs]
  refine ⟨by decide, by decide, by decide, by decide, decimalValue_alt, h, ?_, ?_⟩
  · simp [parse_gpgga_line, h, h6, e6]
  · simp [parse_gpgga_line, h, h6, e6, e9, atof, hm]

/-- C3, the code at the failing input. On the no-fix example of the specification `strtok`
skips the empty fields, so only 4 tokens are found and `parse_gpgga_line` returns `false` at
the token-count test, before the fix quality is looked at: the output record, `valid`
included, is left as it was. -/
theorem parse_gpgga_line_noFixLine (rnd : ℚ → ℚ) (out : GPS_Data_t) :
    tokensOf noFixLine = [bytes "$GPGGA", bytes "123519", bytes "0", bytes "*66"] ∧
    (fieldsOf (lineText noFixLine)).length = 16 ∧
    (fieldsOf (lineText noFixLine)).getD 6 [] = [] ∧
    parse_gpgga_line rnd noFixLine out = (false, out) ∧
    (parse_gpgga_line rnd noFixLine { out with valid := true }).2.valid = true := by
  have h : tokensOf noFixLine = [bytes "$GPGGA", bytes "123519", bytes "0", bytes "*66"] := by
    decide
  refine ⟨h, by decide, by decide, ?_, ?_⟩ <;> simp [parse_gpgga_line, h]

/-- On a line whose first ten fields are all non-empty and whose field 6 has an integer
value that is zero modulo 256, `parse_gpgga_line` returns `false`, sets `valid` to `false`
and changes nothing else. -/
theorem parse_gpgga_line_zero_fix (rnd : ℚ → ℚ) (line : List Nat) (out : GPS_Data_t)
    (hlen : 10 ≤ (fieldsOf (lineText line)).length)
    (hne : ∀ k, k < 10 → (fieldsOf (lineText line)).getD k [] ≠ [])
    (hfix : toUInt8 (atoi ((fieldsOf (lineText line)).getD 6 [])) = 0) :
    parse_gpgga_line rnd line out = (false, { out with valid := false }) := by
  obtain ⟨hl, hk⟩ := tokensOf_eq_fields line hlen hne
  have hnl : ¬ (tokensOf line).length < 10 := by omega
  simp only [parse_gpgga_line, hnl, if_false, hk 6 (by omega), hfix]
  simp

/-- C4. A line that yields fewer than 10 tokens makes `parse_gpgga_line` return `false` and
leaves `utcTime`, `fixQuality`, `numSatellites`, `altitude`, `latitude` and `longitude` of
the output record as they were. -/
theorem parse_gpgga_line_few_tokens (rnd : ℚ → ℚ) (line : List Nat) (out : GPS_Data_t)
    (h : (tokensOf line).length < 10) :
    (parse_gpgga_line rnd line out).1 = false ∧
    (parse_gpgga_line rnd line out).2.utc_time = out.utc_time ∧
    (parse_gpgga_line rnd line out).2.fix_quality = out.fix_quality ∧
    (parse_gpgga_line rnd line out).2.num_satellites = out.num_satellites ∧
    (parse_gpgga_line rnd line out).2.altitude = out.altitude ∧
    (parse_gpgga_line rnd line out).2.latitude = out.latitude ∧
    (parse_gpgga_line rnd line out).2.longitude = out.longitude := by
  simp [parse_gpgga_line, h]


/-- Witness of C4: a sentence cut after its fourth field. -/
theorem parse_gpgga_line_few_tokens_witness :
    (tokensOf (bytes "$GPGGA,123519,4807.038,N")).length < 10 ∧
    (parse_gpgga_line (fun y => y) (bytes "$GPGGA,123519,4807.038,N") someFix).1 = false ∧
    (parse_gpgga_line (fun y => y) (bytes "$GPGGA,123519,4807.038,N") someFix).2.utc_time
      = someFix.utc_time ∧
    (parse_gpgga_line (fun y => y) (bytes "$GPGGA,123519,4807.038,N") someFix).2.fix_quality
      = someFix.fix_quality ∧
    (parse_gpgga_line (fun y => y) (bytes "$GPGGA,123519,4807.038,N") someFix).2.num_satellites
      = someFix.num_satellites ∧
    (parse_gpgga_line (fun y => y) (bytes "$GPGGA,123519,4807.038,N") someFix).2.altitude
      = someFix.altitude ∧
    (parse_gpgga_line (fun y => y) (bytes "$GPGGA,123519,4807.038,N") someFix).2.latitude
      = someFix.latitude ∧
    (parse_gpgga_line (fun y => y) (bytes "$GPGGA,123519,4807.038,N") someFix).2.longitude
      = someFix.longitude :=
  ⟨by decide,
   parse_gpgga_line_few_tokens (fun y => y) (bytes "$GPGGA,123519,4807.038,N") someFix
     (by decide)⟩


/-- Counterexample to C5 as stated: on a sentence that reports fix quality 0 the decode
fails and the stored fix is not left untouched: its `valid` goes from `true` to `false`. -/
theorem parse_gpgga_line_zero_fix_clears_valid :
    someFix.valid = true ∧
    (parse_gpgga_line (fun y => y) zeroFixLine someFix).1 = false ∧
    (parse_gpgga_line (fun y => y) zeroFixLine someFix).2.valid = false ∧
    (parse_gpgga_line (fun y => y) zeroFixLine someFix).2 ≠ someFix := by
  have h : tokensOf zeroFixLine =
      [bytes "$GPGGA", bytes "123519", bytes "4807.038", bytes "N", bytes "01131.000",
       bytes "E", bytes "0", bytes "08", bytes "0.9", bytes "545.4", bytes "M", bytes "46.9",
       bytes "M", bytes "*47"] := by decide
  have h6 : toUInt8 (atoi (bytes "0")) = 0 := by decide
  have e6 : (bytes "0").isEmpty = false := by decide
  have hp : parse_gpgga_line (fun y => y) zeroFixLine someFix =
      (false, { someFix with valid := false }) := by
    simp [parse_gpgga_line, h, h6, e6]
  rw [hp]
  refine ⟨rfl, rfl, rfl, ?_⟩
  intro hc
  have := congrArg GPS_Data_t.valid hc
  simp [someFix] at this

/-- C5, amended. When `parse_gpgga_line` fails, `utcTime`, `fixQuality`, `numSatellites`,
`altitude`, `latitude` and `longitude` are left as they were; for insufficient tokens the
whole record is left as it was, and for zero fix quality `valid` is set to `false` and
nothing else changes. -/
theorem parse_gpgga_line_failure (rnd : ℚ → ℚ) (line : List Nat) (out : GPS_Data_t)
    (h : (parse_gpgga_line rnd line out).1 = false) :
    (parse_gpgga_line rnd line out).2.utc_time = out.utc_time ∧
    (parse_gpgga_line rnd line out).2.fix_quality = out.fix_quality ∧
    (parse_gpgga_line rnd line out).2.num_satellites = out.num_satellites ∧
    (parse_gpgga_line rnd line out).2.altitude = out.altitude ∧
    (parse_gpgga_line rnd line out).2.latitude = out.latitude ∧
    (parse_gpgga_line rnd line out).2.longitude = out.longitude ∧
    (((tokensOf line).length < 10 ∧ (parse_gpgga_line rnd line out).2 = out) ∨
     (10 ≤ (tokensOf line).length ∧
      (parse_gpgga_line rnd line out).2 = { out with valid := false })) := by
  by_cases hc : (tokensOf line).length < 10
  · simp [parse_gpgga_line, hc]
  · by_cases hq : ((if ((tokensOf line).getD 6 []).isEmpty then 0
        else toUInt8 (atoi ((tokensOf line).getD 6 []))) == 0) = true
    · have hp : parse_gpgga_line rnd line out = (false, { out with valid := false }) := by
        simp only [parse_gpgga_line, hc, if_false, hq, if_true]
      rw [hp]
      exact ⟨rfl, rfl, rfl, rfl, rfl, rfl, Or.inr ⟨by omega, rfl⟩⟩
    · have hp : (parse_gpgga_line rnd line out).1 = true := by
        simp only [parse_gpgga_line, hc, if_false, hq, Bool.false_eq_true]
      rw [hp] at h
      cases h

/-- Witness of C5 amended: the zero-fix sentence, decoded over a valid fix. -/
theorem parse_gpgga_line_failure_witness :
    (parse_gpgga_line (fun y => y) zeroFixLine someFix).1 = false ∧
    (parse_gpgga_line (fun y => y) zeroFixLine someFix).2.utc_time = someFix.utc_time ∧
    (parse_gpgga_line (fun y => y) zeroFixLine someFix).2.fix_quality
      = someFix.fix_quality ∧
    (parse_gpgga_line (fun y => y) zeroFixLine someFix).2.num_satellites
      = someFix.num_satellites ∧
    (parse_gpgga_line (fun y => y) zeroFixLine someFix).2.altitude = someFix.altitude ∧
    (parse_gpgga_line (fun y => y) zeroFixLine someFix).2.latitude = someFix.latitude ∧
    (parse_gpgga_line (fun y => y) zeroFixLine someFix).2.longitude = someFix.longitude ∧
    (((tokensOf zeroFixLine).length < 10 ∧
        (parse_gpgga_line (fun y => y) zeroFixLine someFix).2 = someFix) ∨
     (10 ≤ (tokensOf zeroFixLine).length ∧
      (parse_gpgga_line (fun y => y) zeroFixLine someFix).2
        = { someFix with valid := false })) :=
  ⟨by decide, parse_gpgga_line_failure (fun y => y) zeroFixLine someFix (by decide)⟩
/-! ### Public operations -/

/-- C6. `GPS_GetLatestData` with the ready flag `false` returns `false` and changes neither
the caller's record nor the driver state; with the ready flag `true` and a non-null
destination it returns `true`, the caller's record becomes the stored fix, the stored fix
and all other state are unchanged except that the ready flag is `false` afterwards, and a
call that follows at once returns `false`. -/
theorem GPS_GetLatestData_spec (s : GPS_State) (data data2 : Option GPS_Data_t)
    (d : GPS_Data_t) :
    GPS_GetLatestData { s with new_data_ready := false } data
      = (false, { s with new_data_ready := false }, data) ∧
    GPS_GetLatestData { s with new_data_ready := true } (some d)
      = (true, { s with new_data_ready := false }, some s.latest_data) ∧
    (GPS_GetLatestData { s with new_data_ready := true } (some d)).2.1.latest_data
      = s.latest_data ∧
    (GPS_GetLatestData
      (GPS_GetLatestData { s with new_data_ready := true } (some d)).2.1 data2).1 = false := by
  refine ⟨?_, ?_, ?_, ?_⟩
  · cases data <;> simp [GPS_GetLatestData]
  · simp [GPS_GetLatestData]
  · simp [GPS_GetLatestData]
  · cases data2 <;> simp [GPS_GetLatestData]

/-- The loop body never clears the ready flag. -/
theorem GPS_Update_byte_ready (rnd : ℚ → ℚ) (s : GPS_State) (c : Nat)
    (h : s.new_data_ready = true) : (GPS_Update_byte rnd s c).new_data_ready = true := by
  unfold GPS_Update_byte
  split
  · split
    · split
      · simp [h]
      · exact h
    · exact h
  · split
    · exact h
    · exact h

theorem foldl_GPS_Update_byte_ready (rnd : ℚ → ℚ) (bs : List Nat) :
    ∀ s : GPS_State, s.new_data_ready = true →
      (bs.foldl (GPS_Update_byte rnd) s).new_data_ready = true := by
  induction bs with
  | nil => intro s h; exact h
  | cons c bs ih => intro s h; exact ih _ (GPS_Update_byte_ready rnd s c h)

/-- A successful decode raises the ready flag. -/
theorem GPS_Update_byte_decodes (rnd : ℚ → ℚ) (s : GPS_State) (c : Nat)
    (h : decodesAt rnd s c = true) : (GPS_Update_byte rnd s c).new_data_ready = true := by
  simp only [decodesAt, Bool.and_eq_true] at h
  obtain ⟨⟨⟨h1, h2⟩, h3⟩, h4⟩ := h
  have h2' : (0 < s.line_pos && s.line.getD 0 0 == 36) = true := by
    simpa only [Bool.and_eq_true] using h2
  simp only [GPS_Update_byte, h1, h2', h3, h4, if_true, Bool.true_or]

/-- A byte other than the line terminator changes neither the fix record nor the ready
flag. -/
theorem GPS_Update_byte_quiet (rnd : ℚ → ℚ) (s : GPS_State) (c : Nat) (h : c ≠ 10) :
    (GPS_Update_byte rnd s c).latest_data = s.latest_data ∧
    (GPS_Update_byte rnd s c).new_data_ready = s.new_data_ready := by
  have h' : (c == 10) = false := by simpa using h
  unfold GPS_Update_byte
  simp only [h', Bool.false_eq_true, if_false]
  split <;> exact ⟨rfl, rfl⟩

theorem foldl_GPS_Update_byte_quiet (rnd : ℚ → ℚ) (bs : List Nat) :
    ∀ s : GPS_State, bs.all (fun c => c != 10) = true →
      (bs.foldl (GPS_Update_byte rnd) s).latest_data = s.latest_data ∧
      (bs.foldl (GPS_Update_byte rnd) s).new_data_ready = s.new_data_ready := by
  induction bs with
  | nil => intro s _; exact ⟨rfl, rfl⟩
  | cons c bs ih =>
    intro s h
    simp only [List.all_cons, Bool.and_eq_true, bne_iff_ne, ne_eq] at h
    obtain ⟨a1, a2⟩ := ih (GPS_Update_byte rnd s c) h.2
    obtain ⟨b1, b2⟩ := GPS_Update_byte_quiet rnd s c h.1
    simp only [List.foldl_cons]
    exact ⟨a1.trans b1, a2.trans b2⟩

/-- A call of `GPS_Update` that reads no line terminator changes neither the fix record nor
the ready flag. -/
theorem GPS_Update_quiet (rnd : ℚ → ℚ) (s : GPS_State) (buf : List Nat) (cnt : Nat)
    (h : quietUpdate s buf cnt = true) :
    (GPS_Update rnd s buf cnt).latest_data = s.latest_data ∧
    (GPS_Update rnd s buf cnt).new_data_ready = s.new_data_ready := by
  unfold GPS_Update
  by_cases ht : get_dma_tail cnt = s.last_tail
  · simp [ht]
  · have ht' : (get_dma_tail cnt != s.last_tail) = true := by simpa using ht
    have ht'' : (get_dma_tail cnt == s.last_tail) = false := by simpa using ht
    simp only [quietUpdate, ht'', Bool.false_or] at h
    simp only [ht', if_true]
    exact foldl_GPS_Update_byte_quiet rnd _ s h

theorem runUpdates_quiet (rnd : ℚ → ℚ) (us : List (List Nat × Nat)) :
    ∀ s : GPS_State, quietRun rnd s us = true →
      (runUpdates rnd s us).latest_data = s.latest_data ∧
      (runUpdates rnd s us).new_data_ready = s.new_data_ready := by
  induction us with
  | nil => intro s _; exact ⟨rfl, rfl⟩
  | cons u us ih =>
    intro s h
    simp only [quietRun, Bool.and_eq_true] at h
    obtain ⟨a1, a2⟩ := ih (GPS_Update rnd s u.1 u.2) h.2
    obtain ⟨b1, b2⟩ := GPS_Update_quiet rnd s u.1 u.2 h.1
    simp only [runUpdates, List.foldl_cons] at a1 a2 ⊢
    exact ⟨a1.trans b1, a2.trans b2⟩

/-- A call of `GPS_Update` in which some line decodes successfully leaves the ready flag
raised. -/
theorem GPS_Update_decodes (rnd : ℚ → ℚ) (s : GPS_State) (buf : List Nat) (cnt : Nat)
    (pre post : List Nat) (c : Nat) (ht : get_dma_tail cnt ≠ s.last_tail)
    (hw : walked s.last_tail (get_dma_tail cnt) buf = pre ++ c :: post)
    (hd : decodesAt rnd (pre.foldl (GPS_Update_byte rnd) s) c = true) :
    (GPS_Update rnd s buf cnt).new_data_ready = true := by
  have ht' : (get_dma_tail cnt != s.last_tail) = true := by simpa using ht
  simp only [GPS_Update, ht', if_true, hw, List.foldl_append, List.foldl_cons]
  exact foldl_GPS_Update_byte_ready rnd post _ (GPS_Update_byte_decodes rnd _ c hd)

/-- C7. After `GPS_Init`, and after any `GPS_Update` calls that read no line terminator, the
first `GPS_GetLatestData` returns `false`.  After a `GPS_Update` call in which a sentence
decodes successfully, and however many `GPS_Update` calls that read no line terminator
follow, `GPS_GetLatestData` returns `true` and hands out the stored fix; the calls after it
return `false`, again across any `GPS_Update` calls that read no line terminator. -/
theorem GPS_GetLatestData_once_per_fix (rnd : ℚ → ℚ)
    (s0 : GPS_State) (us0 : List (List Nat × Nat)) (data0 : Option GPS_Data_t)
    (s : GPS_State) (buf : List Nat) (cnt : Nat) (pre post : List Nat) (c : Nat)
    (us us2 : List (List Nat × Nat)) (d : GPS_Data_t) (data2 : Option GPS_Data_t)
    (hq0 : quietRun rnd (GPS_Init s0) us0 = true)
    (ht : get_dma_tail cnt ≠ s.last_tail)
    (hw : walked s.last_tail (get_dma_tail cnt) buf = pre ++ c :: post)
    (hd : decodesAt rnd (pre.foldl (GPS_Update_byte rnd) s) c = true)
    (hq1 : quietRun rnd (GPS_Update rnd s buf cnt) us = true)
    (hq2 : quietRun rnd
      (GPS_GetLatestData (runUpdates rnd (GPS_Update rnd s buf cnt) us) (some d)).2.1 us2
        = true) :
    (GPS_GetLatestData (runUpdates rnd (GPS_Init s0) us0) data0).1 = false ∧
    (GPS_GetLatestData (runUpdates rnd (GPS_Update rnd s buf cnt) us) (some d)).1 = true ∧
    (GPS_GetLatestData (runUpdates rnd (GPS_Update rnd s buf cnt) us) (some d)).2.2
      = some (GPS_Update rnd s buf cnt).latest_data ∧
    (GPS_GetLatestData
      (runUpdates rnd
        (GPS_GetLatestData (runUpdates rnd (GPS_Update rnd s buf cnt) us) (some d)).2.1 us2)
      data2).1 = false := by
  have hi : (runUpdates rnd (GPS_Init s0) us0).new_data_ready = false :=
    (runUpdates_quiet rnd us0 _ hq0).2
  have hr : (runUpdates rnd (GPS_Update rnd s buf cnt) us).new_data_ready = true :=
    (runUpdates_quiet rnd us _ hq1).2.trans (GPS_Update_decodes rnd s buf cnt pre post c ht hw hd)
  have hl := (runUpdates_quiet rnd us _ hq1).1
  have hg : GPS_GetLatestData (runUpdates rnd (GPS_Update rnd s buf cnt) us) (some d) =
      (true, { runUpdates rnd (GPS_Update rnd s buf cnt) us with new_data_ready := false },
        some (runUpdates rnd (GPS_Update rnd s buf cnt) us).latest_data) := by
    simp [GPS_GetLatestData, hr]
  rw [hg] at hq2 ⊢
  have h2 := (runUpdates_quiet rnd us2 _ hq2).2
  refine ⟨?_, rfl, by rw [hl], ?_⟩
  · cases data0 <;> simp [GPS_GetLatestData, hi]
  · simp only at h2
    cases data2 <;> simp [GPS_GetLatestData, h2]

/-- Witness of C7: nothing is ready after `GPS_Init` and a quiet update; the example
sentence and its terminator are then delivered, two quiet updates follow, the first
`GPS_GetLatestData` returns `true` and the second `false`. -/
theorem GPS_GetLatestData_once_per_fix_witness :
    quietRun (fun y => y) (GPS_Init GPS_State.startup)
      [(placeAt 0 (bytes "$GP"), 256 - 3)] = true ∧
    walked 0 (get_dma_tail (256 - 69)) (placeAt 0 (exampleLine ++ 10 :: bytes "$GP"))
      = exampleLine ++ 10 :: bytes "$GP" ∧
    decodesAt (fun y => y)
      (exampleLine.foldl (GPS_Update_byte (fun y => y)) GPS_State.startup) 10 = true ∧
    (GPS_GetLatestData (runUpdates (fun y => y) (GPS_Init GPS_State.startup)
      [(placeAt 0 (bytes "$GP"), 256 - 3)]) (some GPS_Data_t.zero)).1 = false ∧
    (GPS_GetLatestData (runUpdates (fun y => y)
      (GPS_Update (fun y => y) GPS_State.startup
        (placeAt 0 (exampleLine ++ 10 :: bytes "$GP")) (256 - 69))
      [(placeAt 0 (exampleLine ++ 10 :: bytes "$GPGGA"), 256 - 72)])
      (some GPS_Data_t.zero)).1 = true ∧
    (GPS_GetLatestData (runUpdates (fun y => y)
      (GPS_Update (fun y => y) GPS_State.startup
        (placeAt 0 (exampleLine ++ 10 :: bytes "$GP")) (256 - 69))
      [(placeAt 0 (exampleLine ++ 10 :: bytes "$GPGGA"), 256 - 72)])
      (some GPS_Data_t.zero)).2.2
      = some (GPS_Update (fun y => y) GPS_State.startup
        (placeAt 0 (exampleLine ++ 10 :: bytes "$GP")) (256 - 69)).latest_data ∧
    (GPS_GetLatestData
      (runUpdates (fun y => y)
        (GPS_GetLatestData (runUpdates (fun y => y)
          (GPS_Update (fun y => y) GPS_State.startup
            (placeAt 0 (exampleLine ++ 10 :: bytes "$GP")) (256 - 69))
          [(placeAt 0 (exampleLine ++ 10 :: bytes "$GPGGA"), 256 - 72)])
          (some GPS_Data_t.zero)).2.1
        [(placeAt 0 (exampleLine ++ 10 :: bytes "$GPGGA,1"), 256 - 74)])
      (some GPS_Data_t.zero)).1 = false :=
  ⟨by decide, by decide, by decide,
   GPS_GetLatestData_once_per_fix (fun y => y)
     GPS_State.startup [(placeAt 0 (bytes "$GP"), 256 - 3)] (some GPS_Data_t.zero)
     GPS_State.startup (placeAt 0 (exampleLine ++ 10 :: bytes "$GP")) (256 - 69)
     exampleLine (bytes "$GP") 10
     [(placeAt 0 (exampleLine ++ 10 :: bytes "$GPGGA"), 256 - 72)]
     [(placeAt 0 (exampleLine ++ 10 :: bytes "$GPGGA,1"), 256 - 74)]
     GPS_Data_t.zero (some GPS_Data_t.zero)
     (by decide) (by decide) (by decide) (by decide) (by decide) (by decide)⟩


/-- C8, the code at the failing input. After `GPS_Update` has read three bytes, `GPS_Init`
clears `buffer_head`, the ready flag and the fix record, but the cursor `last_tail` that
`GPS_Update` uses is still 3 and the accumulator still holds 3 bytes: the next `GPS_Update`
starts its walk at offset 3, and the example sentence received at offset 0 of the restarted
buffer is not decoded, whereas it is from the start-up state. -/
theorem GPS_Init_keeps_cursor :
    (GPS_Init afterAbc).buffer_head = 0 ∧
    (GPS_Init afterAbc).new_data_ready = false ∧
    (GPS_Init afterAbc).latest_data = GPS_Data_t.zero ∧
    (GPS_Init afterAbc).last_tail = 3 ∧
    (GPS_Init afterAbc).line_pos = 3 ∧
    (span (GPS_Init afterAbc).last_tail (get_dma_tail (256 - 66))).head? = some 3 ∧
    (GPS_Update (fun y => y) (GPS_Init afterAbc)
      (placeAt 0 (exampleLine ++ [10])) (256 - 66)).new_data_ready = false ∧
    (GPS_Update (fun y => y) GPS_State.startup
      (placeAt 0 (exampleLine ++ [10])) (256 - 66)).new_data_ready = true := by
  refine ⟨rfl, rfl, rfl, ?_, ?_, ?_, ?_, ?_⟩ <;> decide


/-- C9, the code at the failing input. In the state `afterDollar` the bytes accumulated
since the previous terminator are the single byte `$`, the ready flag is `false` and the
stored fix is invalid.  The accumulator is not zero-terminated, so the bytes of the earlier
line are still behind it: at the next line terminator `strncmp` finds `$GPGGA`, the stale
text is decoded, the ready flag is raised and the stored fix becomes valid. -/
theorem GPS_Update_byte_stale_line :
    afterDollar.line_pos = 1 ∧
    afterDollar.line.take afterDollar.line_pos = bytes "$" ∧
    afterDollar.new_data_ready = false ∧
    afterDollar.latest_data.valid = false ∧
    cstr afterDollar.line = bytes "$GPGGA,1,2,3,4,5,1,7,8,9" ∧
    (GPS_Update_byte (fun y => y) afterDollar 10).new_data_ready = true ∧
    (GPS_Update_byte (fun y => y) afterDollar 10).latest_data.valid = true ∧
    (GPS_Update_byte (fun y => y) afterDollar 10).line_pos = 0 ∧
    (GPS_Update (fun y => y) afterDollar
      (placeAt 0 (bytes "XGPGGA,1,2,3,4,5,1,7,8,9\n$\n")) (256 - 27)).new_data_ready = true := by
  refine ⟨?_, ?_, ?_, ?_, ?_, ?_, ?_, ?_, ?_⟩ <;> decide

/-! ### Wraparound -/

/-- For an unread stretch of `n` bytes, `1 ≤ n ≤ 255`, that starts at offset `p`, the loop
visits the `n` offsets `p, p + 1, …, p + n - 1`, whether or not the stretch wraps. -/
theorem span_eq_range (p n : Nat) (hp : p < 256) (hn1 : 1 ≤ n) (hn2 : n ≤ 255) :
    span p ((p + n) % 256) = List.range' p n := by
  have h : loopEnd p ((p + n) % 256) - p = n := by
    unfold loopEnd GPS_BUFFER_SIZE
    split <;> omega
  rw [span, h]

/-- The bytes read from a buffer that holds `bs` from offset `p` on, modulo the capacity, are
the bytes of `bs` in order. -/
theorem walked_eq (p : Nat) (bs buf : List Nat) (hp : p < 256) (hn1 : 1 ≤ bs.length)
    (hn2 : bs.length ≤ 255)
    (hb : ∀ k, k < bs.length → buf.getD ((p + k) % 256) 0 = bs.getD k 0) :
    walked p ((p + bs.length) % 256) buf = bs := by
  rw [walked, span_eq_range p bs.length hp hn1 hn2]
  apply List.ext_getElem
  · simp
  · intro k h1 h2
    simp only [List.getElem_map, List.getElem_range', GPS_BUFFER_SIZE, Nat.one_mul]
    rw [hb k h2]
    simp [List.getD_eq_getElem?_getD, h2]

/-- The loop body neither reads nor writes `last_tail` and `buffer_head`. -/
theorem GPS_Update_byte_cursor (rnd : ℚ → ℚ) (s : GPS_State) (c t b : Nat) :
    GPS_Update_byte rnd { s with last_tail := t, buffer_head := b } c =
      { GPS_Update_byte rnd s c with last_tail := t, buffer_head := b } := by
  unfold GPS_Update_byte
  simp only
  split_ifs <;> rfl

theorem foldl_GPS_Update_byte_cursor (rnd : ℚ → ℚ) (bs : List Nat) (t b : Nat) :
    ∀ s : GPS_State,
      bs.foldl (GPS_Update_byte rnd) { s with last_tail := t, buffer_head := b } =
        { bs.foldl (GPS_Update_byte rnd) s with last_tail := t, buffer_head := b } := by
  induction bs with
  | nil => intro s; rfl
  | cons c bs ih =>
    intro s
    simp only [List.foldl_cons, GPS_Update_byte_cursor, ih]

/-- One call of `GPS_Update` on an unread stretch `bs` of 1 to 255 bytes is the loop body
run over the bytes of `bs` in order, followed by the update of the cursor. -/
theorem GPS_Update_eq_foldl (rnd : ℚ → ℚ) (s : GPS_State) (bs buf : List Nat) (cnt : Nat)
    (hp : s.last_tail < 256) (hn1 : 1 ≤ bs.length) (hn2 : bs.length ≤ 255)
    (ht : get_dma_tail cnt = (s.last_tail + bs.length) % 256)
    (hb : ∀ k, k < bs.length → buf.getD ((s.last_tail + k) % 256) 0 = bs.getD k 0) :
    GPS_Update rnd s buf cnt =
      { bs.foldl (GPS_Update_byte rnd) s with
        last_tail := (s.last_tail + bs.length) % 256 } := by
  have hne : (get_dma_tail cnt != s.last_tail) = true := by
    rw [ht]
    simp only [bne_iff_ne, ne_eq]
    omega
  simp only [GPS_Update, hne, if_true]
  rw [ht, walked_eq s.last_tail bs buf hp hn1 hn2 hb]
  simp [GPS_BUFFER_SIZE]

/-- C10. A sequence of 1 to 255 bytes delivered across the end of the circular buffer (new
tail below the previous tail) and the same sequence delivered without wraparound, each to
`GPS_Update` from states with the same accumulator, fix record and ready flag, leave the
same accumulator, fix record and ready flag; in the wrapping case the number of bytes walked
is `256 - previous tail + new tail`. -/
theorem GPS_Update_wraparound (rnd : ℚ → ℚ) (bs : List Nat) (s1 s2 : GPS_State)
    (buf1 buf2 : List Nat) (c1 c2 : Nat)
    (hn1 : 1 ≤ bs.length) (hn2 : bs.length ≤ 255)
    (hp1 : s1.last_tail < 256)
    (hwrap : 256 < s1.last_tail + bs.length)
    (hflat : s2.last_tail + bs.length < 256)
    (ht1 : get_dma_tail c1 = s1.last_tail + bs.length - 256)
    (ht2 : get_dma_tail c2 = s2.last_tail + bs.length)
    (hb1 : ∀ k, k < bs.length → buf1.getD ((s1.last_tail + k) % 256) 0 = bs.getD k 0)
    (hb2 : ∀ k, k < bs.length → buf2.getD (s2.last_tail + k) 0 = bs.getD k 0)
    (hline : s1.line = s2.line) (hpos : s1.line_pos = s2.line_pos)
    (hfix : s1.latest_data = s2.latest_data)
    (hrdy : s1.new_data_ready = s2.new_data_ready) :
    get_dma_tail c1 < s1.last_tail ∧
    (walked s1.last_tail (get_dma_tail c1) buf1).length
      = 256 - s1.last_tail + get_dma_tail c1 ∧
    (GPS_Update rnd s1 buf1 c1).line = (GPS_Update rnd s2 buf2 c2).line ∧
    (GPS_Update rnd s1 buf1 c1).line_pos = (GPS_Update rnd s2 buf2 c2).line_pos ∧
    (GPS_Update rnd s1 buf1 c1).latest_data = (GPS_Update rnd s2 buf2 c2).latest_data ∧
    (GPS_Update rnd s1 buf1 c1).new_data_ready
      = (GPS_Update rnd s2 buf2 c2).new_data_ready := by
  have hm1 : (s1.last_tail + bs.length) % 256 = s1.last_tail + bs.length - 256 := by omega
  have hm2 : (s2.last_tail + bs.length) % 256 = s2.last_tail + bs.length := by omega
  have hb2' : ∀ k, k < bs.length → buf2.getD ((s2.last_tail + k) % 256) 0 = bs.getD k 0 := by
    intro k hk
    rw [Nat.mod_eq_of_lt (by omega)]
    exact hb2 k hk
  have e1 := GPS_Update_eq_foldl rnd s1 bs buf1 c1 hp1 hn1 hn2 (by rw [ht1, hm1]) hb1
  have e2 := GPS_Update_eq_foldl rnd s2 bs buf2 c2 (by omega) hn1 hn2 (by rw [ht2, hm2]) hb2'
  have hs : s1 = { s2 with last_tail := s1.last_tail, buffer_head := s1.buffer_head } := by
    cases s1
    cases s2
    simp only at hline hpos hfix hrdy
    simp [hline, hpos, hfix, hrdy]
  have hw : walked s1.last_tail (get_dma_tail c1) buf1 = bs := by
    rw [ht1, ← hm1]
    exact walked_eq s1.last_tail bs buf1 hp1 hn1 hn2 hb1
  have hf := foldl_GPS_Update_byte_cursor rnd bs s1.last_tail s1.buffer_head s2
  rw [← hs] at hf
  rw [e1, e2, hf, hw]
  refine ⟨by omega, by omega, rfl, rfl, rfl, rfl⟩

/-- Witness of C10: the three bytes `ab` and a line terminator, delivered at offsets 254, 255
and 0, and delivered at offsets 0, 1 and 2. -/
theorem GPS_Update_wraparound_witness :
    get_dma_tail (256 - 1) < 254 ∧
    (walked 254 (get_dma_tail (256 - 1)) (placeAt 254 (bytes "ab\n"))).length
      = 256 - 254 + get_dma_tail (256 - 1) ∧
    (GPS_Update (fun y => y) { GPS_State.startup with last_tail := 254 }
      (placeAt 254 (bytes "ab\n")) (256 - 1)).line
      = (GPS_Update (fun y => y) GPS_State.startup (placeAt 0 (bytes "ab\n")) (256 - 3)).line ∧
    (GPS_Update (fun y => y) { GPS_State.startup with last_tail := 254 }
      (placeAt 254 (bytes "ab\n")) (256 - 1)).line_pos
      = (GPS_Update (fun y => y) GPS_State.startup
          (placeAt 0 (bytes "ab\n")) (256 - 3)).line_pos ∧
    (GPS_Update (fun y => y) { GPS_State.startup with last_tail := 254 }
      (placeAt 254 (bytes "ab\n")) (256 - 1)).latest_data
      = (GPS_Update (fun y => y) GPS_State.startup
          (placeAt 0 (bytes "ab\n")) (256 - 3)).latest_data ∧
    (GPS_Update (fun y => y) { GPS_State.startup with last_tail := 254 }
      (placeAt 254 (bytes "ab\n")) (256 - 1)).new_data_ready
      = (GPS_Update (fun y => y) GPS_State.startup
          (placeAt 0 (bytes "ab\n")) (256 - 3)).new_data_ready :=
  GPS_Update_wraparound (fun y => y) (bytes "ab\n")
    { GPS_State.startup with last_tail := 254 } GPS_State.startup
    (placeAt 254 (bytes "ab\n")) (placeAt 0 (bytes "ab\n")) (256 - 1) (256 - 3)
    (by decide) (by decide) (by decide) (by decide) (by decide) (by decide) (by decide)
    (by decide) (by decide) rfl rfl rfl rfl

/-! ### Invariants of the line extractor -/

/-- A call of `GPS_Update` that finds the tail where the previous call left it returns the
state unchanged. -/
theorem GPS_Update_of_eq (rnd : ℚ → ℚ) (s : GPS_State) (dma_buffer : List Nat)
    (counter : Nat) (h : get_dma_tail counter = s.last_tail) :
    GPS_Update rnd s dma_buffer counter = s := by
  simp [GPS_Update, h]

/-- A call of `GPS_Update` that finds a new tail runs the loop body over the bytes walked and
stores the tail modulo the capacity. -/
theorem GPS_Update_of_ne (rnd : ℚ → ℚ) (s : GPS_State) (dma_buffer : List Nat)
    (counter : Nat) (h : get_dma_tail counter ≠ s.last_tail) :
    GPS_Update rnd s dma_buffer counter =
      { (walked s.last_tail (get_dma_tail counter) dma_buffer).foldl (GPS_Update_byte rnd) s
        with last_tail := get_dma_tail counter % 256 } := by
  have h' : (get_dma_tail counter != s.last_tail) = true := by simpa using h
  simp [GPS_Update, h', GPS_BUFFER_SIZE]

/-- C15. When the tail computed by `GPS_Update` equals the stored previous tail, the call
changes nothing: cursor, accumulator and its write cursor, fix record and ready flag are
those of the state before the call. -/
theorem GPS_Update_same_tail (rnd : ℚ → ℚ) (s : GPS_State) (dma_buffer : List Nat)
    (counter : Nat) (h : get_dma_tail counter = s.last_tail) :
    GPS_Update rnd s dma_buffer counter = s := by
  simp [GPS_Update, h]

/-- Witness of C15: a second call that finds the DMA counter where the first left it. -/
theorem GPS_Update_same_tail_witness :
    get_dma_tail (256 - 3) = afterAbc.last_tail ∧
    GPS_Update (fun y => y) afterAbc (placeAt 0 (bytes "abc")) (256 - 3) = afterAbc :=
  ⟨by decide,
   GPS_Update_same_tail (fun y => y) afterAbc (placeAt 0 (bytes "abc")) (256 - 3) (by decide)⟩

/-- The loop body keeps the write cursor at or below 255, the accumulator 256 bytes long and
its last byte zero. -/
theorem GPS_Update_byte_inv (rnd : ℚ → ℚ) (s : GPS_State) (c : Nat)
    (h : s.line_pos ≤ 255 ∧ s.line.length = 256 ∧ s.line.getD 255 0 = 0) :
    (GPS_Update_byte rnd s c).line_pos ≤ 255 ∧ (GPS_Update_byte rnd s c).line.length = 256 ∧
      (GPS_Update_byte rnd s c).line.getD 255 0 = 0 := by
  obtain ⟨h1, h2, h3⟩ := h
  unfold GPS_Update_byte
  split
  · split
    · split
      · exact ⟨Nat.zero_le _, h2, h3⟩
      · exact ⟨Nat.zero_le _, h2, h3⟩
    · exact ⟨Nat.zero_le _, h2, h3⟩
  · split
    · rename_i hc
      simp only [GPS_BUFFER_SIZE, Bool.and_eq_true, decide_eq_true_eq] at hc
      refine ⟨by simp only; omega, by simp [h2], ?_⟩
      simp only [List.getD_eq_getElem?_getD] at h3 ⊢
      rw [List.getElem?_set_ne (by omega)]
      exact h3
    · exact ⟨h1, h2, h3⟩

theorem foldl_GPS_Update_byte_inv (rnd : ℚ → ℚ) (bs : List Nat) :
    ∀ s : GPS_State, (s.line_pos ≤ 255 ∧ s.line.length = 256 ∧ s.line.getD 255 0 = 0) →
      (bs.foldl (GPS_Update_byte rnd) s).line_pos ≤ 255 ∧
      (bs.foldl (GPS_Update_byte rnd) s).line.length = 256 ∧
      (bs.foldl (GPS_Update_byte rnd) s).line.getD 255 0 = 0 := by
  induction bs with
  | nil => intro s h; exact h
  | cons c bs ih => intro s h; exact ih _ (GPS_Update_byte_inv rnd s c h)

/-- In every reachable state the write cursor is at most 255, the accumulator is 256 bytes
long with a zero last byte, and the read cursor is below 256. -/
theorem Reachable_inv (rnd : ℚ → ℚ) (s : GPS_State) (h : Reachable rnd s) :
    s.line_pos ≤ 255 ∧ s.line.length = 256 ∧ s.line.getD 255 0 = 0 ∧ s.last_tail < 256 := by
  induction h with
  | startup => decide
  | init s _ ih => exact ih
  | update s buf cnt _ ih =>
    obtain ⟨h1, h2, h3, h4⟩ := ih
    by_cases ht : get_dma_tail cnt = s.last_tail
    · rw [GPS_Update_of_eq rnd s buf cnt ht]
      exact ⟨h1, h2, h3, h4⟩
    · rw [GPS_Update_of_ne rnd s buf cnt ht]
      obtain ⟨a, b, c⟩ := foldl_GPS_Update_byte_inv rnd
        (walked s.last_tail (get_dma_tail cnt) buf) s ⟨h1, h2, h3⟩
      exact ⟨a, b, c, Nat.mod_lt _ (by decide)⟩
  | get s data _ ih =>
    cases data with
    | none => exact ih
    | some d =>
      simp only [GPS_GetLatestData]
      split <;> exact ih

/-- C16. In every state reachable by calls of the driver the write cursor of the line
accumulator is at most 255; a printable byte that arrives when the accumulator holds 255
bytes changes nothing, and neither does a byte outside 32..126 other than the line
terminator. -/
theorem line_pos_le_255 (rnd : ℚ → ℚ) (s : GPS_State) (h : Reachable rnd s) :
    s.line_pos ≤ 255 ∧
    (∀ c, 32 ≤ c → c ≤ 126 → s.line_pos = 255 → GPS_Update_byte rnd s c = s) ∧
    (∀ c, c ≠ 10 → (c < 32 ∨ 126 < c) → GPS_Update_byte rnd s c = s) := by
  refine ⟨(Reachable_inv rnd s h).1, ?_, ?_⟩
  · intro c h1 h2 h3
    have hc : (c == 10) = false := by
      simp only [beq_eq_false_iff_ne, ne_eq]
      omega
    simp [GPS_Update_byte, hc, h3, GPS_BUFFER_SIZE]
  · intro c h1 h2
    have hc : (c == 10) = false := by simpa using h1
    have hp : (decide (32 ≤ c) && decide (c ≤ 126)) = false := by
      rcases h2 with h2 | h2
      · simp only [Bool.and_eq_false_imp, decide_eq_true_eq, decide_eq_false_iff_not]
        omega
      · simp only [Bool.and_eq_false_imp, decide_eq_true_eq, decide_eq_false_iff_not]
        omega
    simp [GPS_Update_byte, hc, hp]

/-- Witness of C16: the state reached after three bytes have been read. -/
theorem line_pos_le_255_witness :
    afterAbc.line_pos ≤ 255 ∧
    (∀ c, 32 ≤ c → c ≤ 126 → afterAbc.line_pos = 255 →
      GPS_Update_byte (fun y => y) afterAbc c = afterAbc) ∧
    (∀ c, c ≠ 10 → (c < 32 ∨ 126 < c) → GPS_Update_byte (fun y => y) afterAbc c = afterAbc) :=
  line_pos_le_255 (fun y => y) afterAbc
    (Reachable.update GPS_State.startup (placeAt 0 (bytes "abc")) (256 - 3) Reachable.startup)

/-- C17. From every reachable state and for every value of the DMA counter, the read cursor
stored by `GPS_Update` is the new tail modulo 256 and lies in 0..255; the tail is a 16-bit
value, and every 16-bit value is the tail for some value of the counter. -/
theorem GPS_Update_last_tail (rnd : ℚ → ℚ) (s : GPS_State) (dma_buffer : List Nat)
    (counter : Nat) (h : Reachable rnd s) :
    get_dma_tail counter < 65536 ∧
    (∀ t, t < 65536 → get_dma_tail ((256 + 4294967296 - t) % 4294967296) = t) ∧
    (GPS_Update rnd s dma_buffer counter).last_tail = get_dma_tail counter % 256 ∧
    (GPS_Update rnd s dma_buffer counter).last_tail < 256 := by
  have h4 := (Reachable_inv rnd s h).2.2.2
  have hlt : get_dma_tail counter < 65536 := by
    unfold get_dma_tail
    exact Nat.mod_lt _ (by decide)
  refine ⟨hlt, ?_, ?_, ?_⟩
  · intro t ht
    unfold get_dma_tail GPS_BUFFER_SIZE
    omega
  · by_cases ht : get_dma_tail counter = s.last_tail
    · rw [GPS_Update_of_eq rnd s dma_buffer counter ht, ht, Nat.mod_eq_of_lt h4]
    · rw [GPS_Update_of_ne rnd s dma_buffer counter ht]
  · exact (Reachable_inv rnd _ (Reachable.update s dma_buffer counter h)).2.2.2

/-- Witness of C17: the DMA counter reads 0, so that the tail is 256, in the start-up
state. -/
theorem GPS_Update_last_tail_witness :
    get_dma_tail 0 < 65536 ∧
    (∀ t, t < 65536 → get_dma_tail ((256 + 4294967296 - t) % 4294967296) = t) ∧
    (GPS_Update (fun y => y) GPS_State.startup (placeAt 0 (bytes "abc")) 0).last_tail
      = get_dma_tail 0 % 256 ∧
    (GPS_Update (fun y => y) GPS_State.startup (placeAt 0 (bytes "abc")) 0).last_tail < 256 :=
  GPS_Update_last_tail (fun y => y) GPS_State.startup (placeAt 0 (bytes "abc")) 0
    Reachable.startup

/-! ### Tokens, sign handling and the fix-quality test -/

/-- A token cut by `strtok` is never empty. -/
theorem strtok_ne_nil (s t r : List Nat) (h : strtok s = some (t, r)) : t ≠ [] := by
  unfold strtok at h
  simp only at h
  split at h
  · cases h
  · rename_i hne
    simp only [Option.some.injEq, Prod.mk.injEq] at h
    rw [← h.1]
    cases hd : s.dropWhile (fun c => c == 44) with
    | nil => simp [hd] at hne
    | cons c l =>
      have hc : ¬ ((c == 44) = true) := by
        have := List.head_dropWhile_not (fun c => c == 44) s (by simp [hd])
        simpa [hd] using this
      have hc' : (c != 44) = true := by simpa using hc
      simp [List.takeWhile, hc']

theorem tokenize_ne_nil (n : Nat) :
    ∀ (s : List Nat) (t : List Nat), t ∈ tokenize n s → t ≠ [] := by
  induction n with
  | zero => intro s t h; simp [tokenize] at h
  | succ n ih =>
    intro s t h
    unfold tokenize at h
    split at h
    · simp at h
    · rename_i t0 r hs
      simp only [List.mem_cons] at h
      rcases h with h | h
      · rw [h]; exact strtok_ne_nil s t0 r hs
      · exact ih r t h

theorem tokenize_length_le (n : Nat) : ∀ s : List Nat, (tokenize n s).length ≤ n := by
  induction n with
  | zero => intro s; simp [tokenize]
  | succ n ih =>
    intro s
    unfold tokenize
    split
    · simp
    · rename_i t0 r hs
      simp only [List.length_cons]
      have := ih r
      omega

/-- The tokens that `parse_gpgga_line` reads are not empty. -/
theorem tokensOf_getD_ne_nil (line : List Nat) (k : Nat) (hk : k < (tokensOf line).length) :
    ((tokensOf line).getD k []).isEmpty = false := by
  have hm : (tokensOf line).getD k [] ∈ tokensOf line := by
    rw [List.getD_eq_getElem _ _ hk]
    exact List.getElem_mem hk
  have := tokenize_ne_nil 15 (lineText line) _ hm
  cases h : (tokensOf line).getD k [] with
  | nil => exact absurd h this
  | cons a b => rfl

/-- The result of `parse_gpgga_line` on a line with at least 10 tokens, without the tests
for empty tokens, which never succeed. -/
theorem parse_gpgga_line_of_tokens (rnd : ℚ → ℚ) (line : List Nat) (out : GPS_Data_t)
    (h : 10 ≤ (tokensOf line).length) :
    parse_gpgga_line rnd line out =
      if toUInt8 (atoi ((tokensOf line).getD 6 [])) = 0 then (false, { out with valid := false })
      else
        (true,
          { valid := true
            utc_time := atol ((tokensOf line).getD 1 [])
            fix_quality := toUInt8 (atoi ((tokensOf line).getD 6 []))
            num_satellites := toUInt8 (atoi ((tokensOf line).getD 7 []))
            altitude := atof rnd ((tokensOf line).getD 9 [])
            latitude :=
              if ((tokensOf line).getD 3 []).head? = some 83
              then -parse_lat_lon rnd ((tokensOf line).getD 2 [])
              else parse_lat_lon rnd ((tokensOf line).getD 2 [])
            longitude :=
              if ((tokensOf line).getD 5 []).head? = some 87
              then -parse_lat_lon rnd ((tokensOf line).getD 4 [])
              else parse_lat_lon rnd ((tokensOf line).getD 4 []) }) := by
  have hnl : ¬ (tokensOf line).length < 10 := by omega
  simp only [parse_gpgga_line, hnl, if_false,
    tokensOf_getD_ne_nil line 1 (by omega), tokensOf_getD_ne_nil line 6 (by omega),
    tokensOf_getD_ne_nil line 7 (by omega), tokensOf_getD_ne_nil line 9 (by omega),
    Bool.false_eq_true, beq_iff_eq]

/-- The sign test of a successful `parse_gpgga_line` looks at the first character of tokens
3 and 5: the latitude written is the negated coordinate decode of token 2 when token 3
starts with `S` and the coordinate decode itself otherwise; the longitude written is the
negated coordinate decode of token 4 when token 5 starts with `W` and the coordinate decode
itself otherwise. -/
theorem parse_gpgga_line_sign (rnd : ℚ → ℚ) (line : List Nat) (out : GPS_Data_t)
    (h : (parse_gpgga_line rnd line out).1 = true) :
    (parse_gpgga_line rnd line out).2.latitude
      = (if ((tokensOf line).getD 3 []).head? = some 83
          then -parse_lat_lon rnd ((tokensOf line).getD 2 [])
          else parse_lat_lon rnd ((tokensOf line).getD 2 [])) ∧
    (parse_gpgga_line rnd line out).2.longitude
      = (if ((tokensOf line).getD 5 []).head? = some 87
          then -parse_lat_lon rnd ((tokensOf line).getD 4 [])
          else parse_lat_lon rnd ((tokensOf line).getD 4 [])) := by
  have hl : 10 ≤ (tokensOf line).length := by
    by_contra hc
    have : (parse_gpgga_line rnd line out).1 = false := by
      simp [parse_gpgga_line, Nat.lt_of_not_le hc]
    rw [this] at h
    cases h
  rw [parse_gpgga_line_of_tokens rnd line out hl] at h ⊢
  by_cases hq : toUInt8 (atoi ((tokensOf line).getD 6 [])) = 0
  · rw [if_pos hq] at h
    exact Bool.noConfusion h
  · rw [if_neg hq]
    exact ⟨rfl, rfl⟩

/-- The sign test on a sentence in the southern and western hemispheres. -/
theorem parse_gpgga_line_sign_witness :
    (parse_gpgga_line (fun y => y) southWestLine GPS_Data_t.zero).1 = true ∧
    (tokensOf southWestLine).getD 3 [] = [83] ∧
    (tokensOf southWestLine).getD 5 [] = [87] ∧
    (parse_gpgga_line (fun y => y) southWestLine GPS_Data_t.zero).2.latitude
      = (if ((tokensOf southWestLine).getD 3 []).head? = some 83
          then -parse_lat_lon (fun y => y) ((tokensOf southWestLine).getD 2 [])
          else parse_lat_lon (fun y => y) ((tokensOf southWestLine).getD 2 [])) ∧
    (parse_gpgga_line (fun y => y) southWestLine GPS_Data_t.zero).2.longitude
      = (if ((tokensOf southWestLine).getD 5 []).head? = some 87
          then -parse_lat_lon (fun y => y) ((tokensOf southWestLine).getD 4 [])
          else parse_lat_lon (fun y => y) ((tokensOf southWestLine).getD 4 [])) :=
  ⟨by decide, by decide, by decide,
   (parse_gpgga_line_sign (fun y => y) southWestLine GPS_Data_t.zero (by decide)).1,
   (parse_gpgga_line_sign (fun y => y) southWestLine GPS_Data_t.zero (by decide)).2⟩

/-- C20. The function `parse_gpgga_line` returns `true` exactly when the line yields at
least 10 tokens and the integer value of token 6, reduced modulo 256, is not zero; it then
stores as `fixQuality` and `numSatellites` the integer values of tokens 6 and 7 reduced modulo
256.  A fix-quality token `256` is treated as no fix. -/
theorem parse_gpgga_line_true_iff (rnd : ℚ → ℚ) (line : List Nat) (out : GPS_Data_t) :
    ((parse_gpgga_line rnd line out).1 = true ↔
      (10 ≤ (tokensOf line).length ∧
        (atoi ((tokensOf line).getD 6 []) % 256).toNat ≠ 0)) ∧
    ((parse_gpgga_line rnd line out).1 = true →
      (parse_gpgga_line rnd line out).2.fix_quality
        = (atoi ((tokensOf line).getD 6 []) % 256).toNat ∧
      (parse_gpgga_line rnd line out).2.num_satellites
        = (atoi ((tokensOf line).getD 7 []) % 256).toNat) ∧
    (parse_gpgga_line rnd line256 out).1 = false := by
  have h256 : (parse_gpgga_line rnd line256 out).1 = false := by
    have ht : tokensOf line256 =
      [bytes "$GPGGA", bytes "123519", bytes "4807.038", bytes "N", bytes "01131.000",
       bytes "E", bytes "256", bytes "08", bytes "0.9", bytes "545.4", bytes "M", bytes "46.9",
       bytes "M", bytes "*47"] := by decide
    have h6 : toUInt8 (atoi (bytes "256")) = 0 := by decide
    rw [parse_gpgga_line_of_tokens rnd line256 out (by rw [ht]; decide)]
    simp [ht, h6]
  by_cases hl : 10 ≤ (tokensOf line).length
  · by_cases hq : toUInt8 (atoi ((tokensOf line).getD 6 [])) = 0
    · have hq' : (atoi ((tokensOf line).getD 6 []) % 256).toNat = 0 := hq
      rw [parse_gpgga_line_of_tokens rnd line out hl, if_pos hq]
      exact ⟨⟨fun h => Bool.noConfusion h, fun h => absurd hq' h.2⟩,
        fun h => Bool.noConfusion h, h256⟩
    · have hq' : (atoi ((tokensOf line).getD 6 []) % 256).toNat ≠ 0 := hq
      rw [parse_gpgga_line_of_tokens rnd line out hl, if_neg hq]
      exact ⟨⟨fun _ => ⟨hl, hq'⟩, fun _ => rfl⟩, fun _ => ⟨rfl, rfl⟩, h256⟩
  · have hf : (parse_gpgga_line rnd line out).1 = false := by
      simp [parse_gpgga_line, Nat.lt_of_not_le hl]
    rw [hf]
    exact ⟨⟨fun h => Bool.noConfusion h, fun h => absurd h.1 hl⟩,
      fun h => Bool.noConfusion h, h256⟩

/-- Witness of C20: the example sentence is decoded with fix quality 1 and 8 satellites. -/
theorem parse_gpgga_line_true_iff_witness :
    (parse_gpgga_line (fun y => y) exampleLine GPS_Data_t.zero).2.fix_quality
      = (atoi ((tokensOf exampleLine).getD 6 []) % 256).toNat ∧
    (parse_gpgga_line (fun y => y) exampleLine GPS_Data_t.zero).2.num_satellites
      = (atoi ((tokensOf exampleLine).getD 7 []) % 256).toNat :=
  (parse_gpgga_line_true_iff (fun y => y) exampleLine GPS_Data_t.zero).2.1 (by decide)
/-! ### Stale accumulator content and the ready flag -/

/-- C14, the code at the failing input. In the state `afterShortLine` the bytes accumulated
since the previous terminator are `$GPGGA,9`, which decode to nothing (2 tokens).  The
accumulator is not zero-terminated, so the text handed to `parse_gpgga_line` at the next
terminator is `$GPGGA,9` followed by the rest of the earlier sentence: the decode succeeds
and stores the time 923519, made of the new `9` and the old `23519`.  The same bytes
`$GPGGA,9` read from the start-up state decode to nothing. -/
theorem GPS_Update_byte_reads_earlier_line :
    afterShortLine.line_pos = 8 ∧
    afterShortLine.line.take afterShortLine.line_pos = bytes "$GPGGA,9" ∧
    (parse_gpgga_line (fun y => y) (bytes "$GPGGA,9") GPS_Data_t.zero).1 = false ∧
    cstr afterShortLine.line =
      bytes "$GPGGA,923519,4807.038,N,01131.000,E,1,08,0.9,545.4,M,46.9,M,,*47" ∧
    decodesAt (fun y => y) afterShortLine 10 = true ∧
    (GPS_Update_byte (fun y => y) afterShortLine 10).latest_data.utc_time = 923519 ∧
    (GPS_Update (fun y => y) GPS_State.startup
      (placeAt 0 (bytes "$GPGGA,9\n")) (256 - 9)).new_data_ready = false ∧
    (GPS_Update (fun y => y) GPS_State.startup
      (placeAt 0 (bytes "$GPGGA,9\n")) (256 - 9)).latest_data.utc_time = 0 := by
  refine ⟨?_, ?_, ?_, ?_, ?_, ?_, ?_, ?_⟩ <;> decide

/-- Counterexample to C18 as stated: after `GPS_Init`, the example sentence is decoded and
then a sentence that reports fix quality 0; `GPS_GetLatestData` returns `true` and the fix
it copies out has `valid = false`. -/
theorem GPS_GetLatestData_invalid_fix :
    Reachable (fun y => y) afterFixLost ∧
    (GPS_GetLatestData afterFixLost (some GPS_Data_t.zero)).1 = true ∧
    (GPS_GetLatestData afterFixLost (some GPS_Data_t.zero)).2.2.map (fun d => d.valid)
      = some false ∧
    (GPS_GetLatestData afterFixLost (some GPS_Data_t.zero)).2.2.map (fun d => d.fix_quality)
      = some 1 := by
  refine ⟨?_, ?_, ?_, ?_⟩
  · exact Reachable.update _ _ _ (Reachable.init _ Reachable.startup)
  · decide
  · decide
  · decide

/-- The three outcomes of `parse_gpgga_line`: a successful decode, which stores a valid fix
of non-zero fix quality; a failure for insufficient tokens, which changes nothing; a failure
for zero fix quality, which clears `valid` and changes nothing else. -/
theorem parse_gpgga_line_cases (rnd : ℚ → ℚ) (line : List Nat) (out : GPS_Data_t) :
    ((parse_gpgga_line rnd line out).1 = true ∧
      (parse_gpgga_line rnd line out).2.valid = true ∧
      (parse_gpgga_line rnd line out).2.fix_quality ≠ 0) ∨
    ((parse_gpgga_line rnd line out).1 = false ∧
      (tokensOf line).length < 10 ∧ (parse_gpgga_line rnd line out).2 = out) ∨
    ((parse_gpgga_line rnd line out).1 = false ∧
      10 ≤ (tokensOf line).length ∧ toUInt8 (atoi ((tokensOf line).getD 6 [])) = 0 ∧
      (parse_gpgga_line rnd line out).2 = { out with valid := false }) := by
  by_cases hl : 10 ≤ (tokensOf line).length
  · by_cases hq : toUInt8 (atoi ((tokensOf line).getD 6 [])) = 0
    · rw [parse_gpgga_line_of_tokens rnd line out hl, if_pos hq]
      exact Or.inr (Or.inr ⟨rfl, hl, hq, rfl⟩)
    · rw [parse_gpgga_line_of_tokens rnd line out hl, if_neg hq]
      exact Or.inl ⟨rfl, rfl, hq⟩
  · have hp : parse_gpgga_line rnd line out = (false, out) := by
      simp [parse_gpgga_line, Nat.lt_of_not_le hl]
    rw [hp]
    exact Or.inr (Or.inl ⟨rfl, Nat.lt_of_not_le hl, rfl⟩)

/-- The loop body keeps the fix quality of the stored fix non-zero while the ready flag is
set. -/
theorem GPS_Update_byte_ready_fix (rnd : ℚ → ℚ) (s : GPS_State) (c : Nat)
    (h : s.new_data_ready = true → s.latest_data.fix_quality ≠ 0) :
    (GPS_Update_byte rnd s c).new_data_ready = true →
      (GPS_Update_byte rnd s c).latest_data.fix_quality ≠ 0 := by
  unfold GPS_Update_byte
  split
  · split
    · split
      · simp only
        rcases parse_gpgga_line_cases rnd s.line s.latest_data with h1 | h1 | h1
        · intro _; exact h1.2.2
        · rw [h1.1, h1.2.2, Bool.false_or]; exact h
        · rw [h1.1, h1.2.2.2, Bool.false_or]; exact h
      · exact h
    · exact h
  · split
    · exact h
    · exact h

theorem foldl_GPS_Update_byte_ready_fix (rnd : ℚ → ℚ) (bs : List Nat) :
    ∀ s : GPS_State, (s.new_data_ready = true → s.latest_data.fix_quality ≠ 0) →
      (bs.foldl (GPS_Update_byte rnd) s).new_data_ready = true →
      (bs.foldl (GPS_Update_byte rnd) s).latest_data.fix_quality ≠ 0 := by
  induction bs with
  | nil => intro s h; exact h
  | cons c bs ih => intro s h; exact ih _ (GPS_Update_byte_ready_fix rnd s c h)

/-- In every reachable state in which the ready flag is set, the stored fix has a non-zero
fix quality. -/
theorem Reachable_ready_fix (rnd : ℚ → ℚ) (s : GPS_State) (h : Reachable rnd s) :
    s.new_data_ready = true → s.latest_data.fix_quality ≠ 0 := by
  induction h with
  | startup => intro h; cases h
  | init s _ _ => intro h; cases h
  | update s buf cnt _ ih =>
    by_cases ht : get_dma_tail cnt = s.last_tail
    · rw [GPS_Update_of_eq rnd s buf cnt ht]; exact ih
    · rw [GPS_Update_of_ne rnd s buf cnt ht]
      exact foldl_GPS_Update_byte_ready_fix rnd _ s ih
  | get s data _ ih =>
    cases data with
    | none => exact ih
    | some d =>
      simp only [GPS_GetLatestData]
      split
      · intro h; cases h
      · exact ih

/-- A successful decode leaves a valid fix in the record. -/
theorem GPS_Update_byte_decodes_valid (rnd : ℚ → ℚ) (s : GPS_State) (c : Nat)
    (h : decodesAt rnd s c = true) : (GPS_Update_byte rnd s c).latest_data.valid = true := by
  simp only [decodesAt, Bool.and_eq_true] at h
  obtain ⟨⟨⟨h1, h2⟩, h3⟩, h4⟩ := h
  have h2' : (0 < s.line_pos && s.line.getD 0 0 == 36) = true := by
    simpa only [Bool.and_eq_true] using h2
  simp only [GPS_Update_byte, h1, h2', h3, if_true]
  rcases parse_gpgga_line_cases rnd s.line s.latest_data with a | a | a
  · exact a.2.1
  · rw [a.1] at h4; cases h4
  · rw [a.1] at h4; cases h4

/-- The loop body clears `valid` only at a line terminator at which the accumulated line is
handed to `parse_gpgga_line`, yields at least 10 tokens and has fix quality zero. -/
theorem GPS_Update_byte_clears_valid (rnd : ℚ → ℚ) (s : GPS_State) (c : Nat)
    (h1 : s.latest_data.valid = true)
    (h2 : (GPS_Update_byte rnd s c).latest_data.valid = false) :
    c = 10 ∧ 10 ≤ (tokensOf s.line).length ∧
      toUInt8 (atoi ((tokensOf s.line).getD 6 [])) = 0 := by
  unfold GPS_Update_byte at h2
  split at h2
  · rename_i hc
    split at h2
    · split at h2
      · simp only at h2
        rcases parse_gpgga_line_cases rnd s.line s.latest_data with a | a | a
        · rw [a.2.1] at h2; cases h2
        · rw [a.2.2, h1] at h2; cases h2
        · exact ⟨by simpa using hc, a.2.1, a.2.2.1⟩
      · rw [h1] at h2; cases h2
    · rw [h1] at h2; cases h2
  · split at h2
    · rw [h1] at h2; cases h2
    · rw [h1] at h2; cases h2

/-- C18, amended. In every reachable state, whenever `GPS_GetLatestData` returns `true` the
fix it copies out is the stored fix and has a non-zero `fixQuality`.  That fix has
`valid = true` when it is fetched after a successful decode and before any further line
terminator is read; the loop body clears `valid` only when it decodes a sentence of at least
10 tokens whose fix quality is zero, and it leaves the ready flag set. -/
theorem GPS_GetLatestData_fix_quality (rnd : ℚ → ℚ) (s : GPS_State) (d : GPS_Data_t)
    (s1 : GPS_State) (buf : List Nat) (cnt : Nat) (pre post : List Nat) (c : Nat)
    (us : List (List Nat × Nat)) (d1 : GPS_Data_t)
    (hreach : Reachable rnd s)
    (hget : (GPS_GetLatestData s (some d)).1 = true)
    (ht : get_dma_tail cnt ≠ s1.last_tail)
    (hw : walked s1.last_tail (get_dma_tail cnt) buf = pre ++ c :: post)
    (hd : decodesAt rnd (pre.foldl (GPS_Update_byte rnd) s1) c = true)
    (hpost : post.all (fun b => b != 10) = true)
    (hq : quietRun rnd (GPS_Update rnd s1 buf cnt) us = true) :
    ((GPS_GetLatestData s (some d)).2.2 = some s.latest_data ∧
      s.latest_data.fix_quality ≠ 0) ∧
    ((GPS_GetLatestData (runUpdates rnd (GPS_Update rnd s1 buf cnt) us) (some d1)).1 = true ∧
      (GPS_GetLatestData (runUpdates rnd (GPS_Update rnd s1 buf cnt) us) (some d1)).2.2.map
        (fun x => x.valid) = some true) ∧
    (∀ (s2 : GPS_State) (c2 : Nat), s2.latest_data.valid = true →
      (GPS_Update_byte rnd s2 c2).latest_data.valid = false →
      (c2 = 10 ∧ 10 ≤ (tokensOf s2.line).length ∧
        toUInt8 (atoi ((tokensOf s2.line).getD 6 [])) = 0 ∧
        (GPS_Update_byte rnd s2 c2).new_data_ready = s2.new_data_ready)) := by
  refine ⟨?_, ?_, ?_⟩
  · have hr : s.new_data_ready = true := by
      by_contra hc
      simp [GPS_GetLatestData, hc] at hget
    exact ⟨by simp [GPS_GetLatestData, hr], Reachable_ready_fix rnd s hreach hr⟩
  · have hne : (get_dma_tail cnt != s1.last_tail) = true := by simpa using ht
    have hmid := GPS_Update_byte_decodes_valid rnd _ c hd
    have hmid2 := GPS_Update_byte_decodes rnd _ c hd
    obtain ⟨q1, q2⟩ := foldl_GPS_Update_byte_quiet rnd post
      (GPS_Update_byte rnd (pre.foldl (GPS_Update_byte rnd) s1) c) hpost
    have hv : (GPS_Update rnd s1 buf cnt).latest_data.valid = true := by
      simp only [GPS_Update, hne, if_true, hw, List.foldl_append, List.foldl_cons]
      rw [q1]; exact hmid
    have hr : (GPS_Update rnd s1 buf cnt).new_data_ready = true := by
      simp only [GPS_Update, hne, if_true, hw, List.foldl_append, List.foldl_cons]
      rw [q2]; exact hmid2
    obtain ⟨r1, r2⟩ := runUpdates_quiet rnd us _ hq
    have hr' := r2.trans hr
    have hv' : (runUpdates rnd (GPS_Update rnd s1 buf cnt) us).latest_data.valid = true := by
      rw [r1]; exact hv
    simp [GPS_GetLatestData, hr', hv']
  · intro s2 c2 h1 h2
    obtain ⟨a, b, e⟩ := GPS_Update_byte_clears_valid rnd s2 c2 h1 h2
    refine ⟨a, b, e, ?_⟩
    subst a
    unfold GPS_Update_byte
    simp only [beq_self_eq_true, if_true]
    split
    · split
      · simp only
        rcases parse_gpgga_line_cases rnd s2.line s2.latest_data with x | x | x
        · exfalso
          have hv : (GPS_Update_byte rnd s2 10).latest_data.valid = true := by
            apply GPS_Update_byte_decodes_valid
            simp only [decodesAt, beq_self_eq_true, Bool.true_and, Bool.and_eq_true]
            rename_i g1 g2
            exact ⟨⟨by simpa only [Bool.and_eq_true] using g1, g2⟩, x.1⟩
          rw [hv] at h2; cases h2
        · rw [x.1, Bool.false_or]
        · rw [x.1, Bool.false_or]
      · rfl
    · rfl

/-- Witness of C18 amended: the example sentence is decoded after `GPS_Init`, the start of a
next sentence follows, and the fix fetched is valid with fix quality 1. -/
theorem GPS_GetLatestData_fix_quality_witness :
    ((GPS_GetLatestData afterFixLost (some GPS_Data_t.zero)).2.2
        = some afterFixLost.latest_data ∧
      afterFixLost.latest_data.fix_quality ≠ 0) ∧
    ((GPS_GetLatestData (runUpdates (fun y => y)
        (GPS_Update (fun y => y) (GPS_Init GPS_State.startup)
          (placeAt 0 (exampleLine ++ 10 :: bytes "$GP")) (256 - 69))
        [(placeAt 0 (exampleLine ++ 10 :: bytes "$GPGGA"), 256 - 72)])
        (some GPS_Data_t.zero)).1 = true ∧
      (GPS_GetLatestData (runUpdates (fun y => y)
        (GPS_Update (fun y => y) (GPS_Init GPS_State.startup)
          (placeAt 0 (exampleLine ++ 10 :: bytes "$GP")) (256 - 69))
        [(placeAt 0 (exampleLine ++ 10 :: bytes "$GPGGA"), 256 - 72)])
        (some GPS_Data_t.zero)).2.2.map (fun x => x.valid) = some true) :=
  ⟨(GPS_GetLatestData_fix_quality (fun y => y) afterFixLost GPS_Data_t.zero
      (GPS_Init GPS_State.startup) (placeAt 0 (exampleLine ++ 10 :: bytes "$GP")) (256 - 69)
      exampleLine (bytes "$GP") 10
      [(placeAt 0 (exampleLine ++ 10 :: bytes "$GPGGA"), 256 - 72)] GPS_Data_t.zero
      (Reachable.update _ _ _ (Reachable.init _ Reachable.startup))
      (by decide) (by decide) (by decide) (by decide) (by decide) (by decide)).1,
   (GPS_GetLatestData_fix_quality (fun y => y) afterFixLost GPS_Data_t.zero
      (GPS_Init GPS_State.startup) (placeAt 0 (exampleLine ++ 10 :: bytes "$GP")) (256 - 69)
      exampleLine (bytes "$GP") 10
      [(placeAt 0 (exampleLine ++ 10 :: bytes "$GPGGA"), 256 - 72)] GPS_Data_t.zero
      (Reachable.update _ _ _ (Reachable.init _ Reachable.startup))
      (by decide) (by decide) (by decide) (by decide) (by decide) (by decide)).2.1⟩

/-! ### Polling schedules -/

theorem dmaWrite_length (bs : List Nat) :
    ∀ (buf : List Nat) (pos : Nat), (dmaWrite buf pos bs).length = buf.length := by
  induction bs with
  | nil => intro buf pos; rfl
  | cons b bs ih => intro buf pos; simp [dmaWrite, ih]

/-- The DMA engine leaves alone the offsets it does not write. -/
theorem dmaWrite_getD_of_ne (bs : List Nat) :
    ∀ (buf : List Nat) (pos i : Nat), (∀ j, j < bs.length → (pos + j) % 256 ≠ i) →
      (dmaWrite buf pos bs).getD i 0 = buf.getD i 0 := by
  induction bs with
  | nil => intro buf pos i _; rfl
  | cons b bs ih =>
    intro buf pos i h
    simp only [dmaWrite, GPS_BUFFER_SIZE]
    rw [ih _ _ _ (fun j hj => by
      have := h (j + 1) (by simp only [List.length_cons]; omega)
      rw [show pos + 1 + j = pos + (j + 1) by omega]
      exact this)]
    have h0 := h 0 (by simp)
    simp only [Nat.add_zero] at h0
    simp only [List.getD_eq_getElem?_getD]
    rw [List.getElem?_set_ne h0]

/-- After the DMA engine has written at most 256 bytes from offset `pos` on, the buffer holds
the `k`-th of them at offset `(pos + k) % 256`. -/
theorem dmaWrite_getD (bs : List Nat) :
    ∀ (buf : List Nat) (pos k : Nat), buf.length = 256 → bs.length ≤ 256 → k < bs.length →
      (dmaWrite buf pos bs).getD ((pos + k) % 256) 0 = bs.getD k 0 := by
  induction bs with
  | nil => intro buf pos k _ _ hk; simp at hk
  | cons b bs ih =>
    intro buf pos k hlen hn hk
    simp only [List.length_cons] at hn hk
    cases k with
    | zero =>
      simp only [dmaWrite, GPS_BUFFER_SIZE, Nat.add_zero, List.getD_cons_zero]
      rw [dmaWrite_getD_of_ne bs _ _ _ (fun j hj => by omega)]
      simp only [List.getD_eq_getElem?_getD]
      rw [List.getElem?_set_self (by rw [hlen]; exact Nat.mod_lt _ (by decide))]
      rfl
    | succ k =>
      simp only [dmaWrite, GPS_BUFFER_SIZE, List.getD_cons_succ]
      have := ih (buf.set (pos % 256) b) (pos + 1) k (by simp [hlen]) (by omega) (by omega)
      rw [show pos + (k + 1) = pos + 1 + k by omega]
      exact this

theorem get_dma_tail_dmaCounter (pos : Nat) : get_dma_tail (dmaCounter pos) = pos % 256 := by
  unfold get_dma_tail dmaCounter GPS_BUFFER_SIZE
  omega

theorem GPS_Update_byte_last_tail (rnd : ℚ → ℚ) (s : GPS_State) (c t : Nat) :
    GPS_Update_byte rnd { s with last_tail := t } c =
      { GPS_Update_byte rnd s c with last_tail := t } := by
  unfold GPS_Update_byte
  simp only
  split_ifs <;> rfl

theorem foldl_GPS_Update_byte_last_tail (rnd : ℚ → ℚ) (bs : List Nat) (t : Nat) :
    ∀ s : GPS_State,
      bs.foldl (GPS_Update_byte rnd) { s with last_tail := t } =
        { bs.foldl (GPS_Update_byte rnd) s with last_tail := t } := by
  induction bs with
  | nil => intro s; rfl
  | cons c bs ih =>
    intro s
    simp only [List.foldl_cons, GPS_Update_byte_last_tail, ih]

/-- One poll of the schedule: when the cursor of the driver is at the write position of the
DMA engine and at most 255 bytes are then written, the call of `GPS_Update` is the loop body
run over these bytes in order, and the cursor is again at the write position. -/
theorem GPS_Update_dmaWrite (rnd : ℚ → ℚ) (s : GPS_State) (buf ch : List Nat)
    (hs : s.last_tail < 256) (hbuf : buf.length = 256) (hn : ch.length ≤ 255) :
    GPS_Update rnd s (dmaWrite buf s.last_tail ch) (dmaCounter (s.last_tail + ch.length)) =
      { ch.foldl (GPS_Update_byte rnd) s with
        last_tail := (s.last_tail + ch.length) % 256 } := by
  cases hc : ch with
  | nil =>
    have ht : get_dma_tail (dmaCounter (s.last_tail + ([] : List Nat).length)) = s.last_tail := by
      rw [get_dma_tail_dmaCounter]
      simp only [List.length_nil, Nat.add_zero]
      exact Nat.mod_eq_of_lt hs
    rw [GPS_Update_of_eq rnd s _ _ ht]
    simp only [List.foldl_nil, List.length_nil, Nat.add_zero, Nat.mod_eq_of_lt hs]
  | cons b bs =>
    rw [← hc]
    have h1 : 1 ≤ ch.length := by rw [hc]; simp
    exact GPS_Update_eq_foldl rnd s ch _ _ hs h1 hn (get_dma_tail_dmaCounter _)
      (fun k hk => dmaWrite_getD ch buf s.last_tail k hbuf (by omega) hk)

/-- A schedule in which at most 255 bytes arrive between two polls leaves the driver in the
state that the loop body reaches when it is fed all the bytes in order, with the cursor at
the write position of the DMA engine. -/
theorem pollRun_eq_foldl (rnd : ℚ → ℚ) (chunks : List (List Nat)) :
    ∀ (s : GPS_State) (buf : List Nat), s.last_tail < 256 → buf.length = 256 →
      (∀ ch, ch ∈ chunks → ch.length ≤ 255) →
      pollRun rnd s buf s.last_tail chunks =
        { chunks.flatten.foldl (GPS_Update_byte rnd) s with
          last_tail := (s.last_tail + chunks.flatten.length) % 256 } := by
  induction chunks with
  | nil =>
    intro s buf hs _ _
    simp [pollRun, Nat.mod_eq_of_lt hs]
  | cons ch chs ih =>
    intro s buf hs hbuf hall
    have hn : ch.length ≤ 255 := hall ch (by simp)
    have hu := GPS_Update_dmaWrite rnd s buf ch hs hbuf hn
    simp only [pollRun, GPS_BUFFER_SIZE]
    rw [hu]
    have hlt : (s.last_tail + ch.length) % 256 < 256 := Nat.mod_lt _ (by decide)
    have := ih { ch.foldl (GPS_Update_byte rnd) s with
        last_tail := (s.last_tail + ch.length) % 256 } (dmaWrite buf s.last_tail ch)
      hlt (by rw [dmaWrite_length, hbuf]) (fun c hc => hall c (by simp [hc]))
    simp only at this
    rw [this]
    rw [foldl_GPS_Update_byte_last_tail]
    simp only [List.flatten_cons, List.foldl_append, List.length_append, GPS_State.mk.injEq,
      true_and, and_true]
    omega

/-- Counterexample to C11 as stated: when exactly one full buffer of 256 bytes is written
between two polls, the tail is back where the previous call left it and `GPS_Update` does
nothing, so the sentence that the 256 bytes carry is skipped; fed one byte at a time, the
same bytes raise the ready flag. -/
theorem pollRun_full_buffer_skipped :
    fullChunk.length = 256 ∧
    pollRun (fun y => y) GPS_State.startup (List.replicate 256 0) 0 [fullChunk]
      = GPS_State.startup ∧
    GPS_State.startup.new_data_ready = false ∧
    (fullChunk.foldl (GPS_Update_byte (fun y => y)) GPS_State.startup).new_data_ready
      = true := by
  have hlen : exampleLine.length = 65 := by decide
  refine ⟨by simp [fullChunk, hlen], ?_, rfl, ?_⟩
  · rw [pollRun, pollRun]
    apply GPS_Update_of_eq
    rw [get_dma_tail_dmaCounter]
    simp [fullChunk, hlen]
    rfl
  · have hd : decodesAt (fun y => y)
        (exampleLine.foldl (GPS_Update_byte (fun y => y)) GPS_State.startup) 10 = true := by
      decide
    simp only [fullChunk, List.foldl_append, List.foldl_cons]
    exact foldl_GPS_Update_byte_ready _ _ _ (GPS_Update_byte_decodes _ _ _ hd)

/-- C11, amended. For every byte stream and every polling schedule in which at most 255
bytes are written between two calls of `GPS_Update`, started with the read cursor at the
write position of the DMA engine, the accumulator, its write cursor, the fix record and the
ready flag after the calls are those reached by running the loop body over the bytes of the
stream one at a time, in order; the read cursor is again at the write position. -/
theorem pollRun_refines_bytes (rnd : ℚ → ℚ) (s : GPS_State) (buf : List Nat)
    (chunks : List (List Nat)) (hs : s.last_tail < 256) (hbuf : buf.length = 256)
    (hall : ∀ ch, ch ∈ chunks → ch.length ≤ 255) :
    (pollRun rnd s buf s.last_tail chunks).line
      = (chunks.flatten.foldl (GPS_Update_byte rnd) s).line ∧
    (pollRun rnd s buf s.last_tail chunks).line_pos
      = (chunks.flatten.foldl (GPS_Update_byte rnd) s).line_pos ∧
    (pollRun rnd s buf s.last_tail chunks).latest_data
      = (chunks.flatten.foldl (GPS_Update_byte rnd) s).latest_data ∧
    (pollRun rnd s buf s.last_tail chunks).new_data_ready
      = (chunks.flatten.foldl (GPS_Update_byte rnd) s).new_data_ready ∧
    (pollRun rnd s buf s.last_tail chunks).last_tail
      = (s.last_tail + chunks.flatten.length) % 256 := by
  rw [pollRun_eq_foldl rnd chunks s buf hs hbuf hall]
  exact ⟨rfl, rfl, rfl, rfl, rfl⟩

/-- Witness of C11 amended: a line that arrives in three polls, the second of which finds
nothing new. -/
theorem pollRun_refines_bytes_witness :
    (pollRun (fun y => y) GPS_State.startup (List.replicate 256 0) GPS_State.startup.last_tail
        [bytes "$GP", [], bytes "GGA\n"]).line
      = ([bytes "$GP", [], bytes "GGA\n"].flatten.foldl (GPS_Update_byte (fun y => y))
          GPS_State.startup).line ∧
    (pollRun (fun y => y) GPS_State.startup (List.replicate 256 0) GPS_State.startup.last_tail
        [bytes "$GP", [], bytes "GGA\n"]).line_pos
      = ([bytes "$GP", [], bytes "GGA\n"].flatten.foldl (GPS_Update_byte (fun y => y))
          GPS_State.startup).line_pos ∧
    (pollRun (fun y => y) GPS_State.startup (List.replicate 256 0) GPS_State.startup.last_tail
        [bytes "$GP", [], bytes "GGA\n"]).latest_data
      = ([bytes "$GP", [], bytes "GGA\n"].flatten.foldl (GPS_Update_byte (fun y => y))
          GPS_State.startup).latest_data ∧
    (pollRun (fun y => y) GPS_State.startup (List.replicate 256 0) GPS_State.startup.last_tail
        [bytes "$GP", [], bytes "GGA\n"]).new_data_ready
      = ([bytes "$GP", [], bytes "GGA\n"].flatten.foldl (GPS_Update_byte (fun y => y))
          GPS_State.startup).new_data_ready ∧
    (pollRun (fun y => y) GPS_State.startup (List.replicate 256 0) GPS_State.startup.last_tail
        [bytes "$GP", [], bytes "GGA\n"]).last_tail
      = (GPS_State.startup.last_tail + [bytes "$GP", [], bytes "GGA\n"].flatten.length) % 256 :=
  pollRun_refines_bytes (fun y => y) GPS_State.startup (List.replicate 256 0)
    [bytes "$GP", [], bytes "GGA\n"] (by decide) (by decide) (by decide)

/-! ### Array bounds -/

theorem tokenize_checked_eq (n : Nat) :
    ∀ (s : List Nat) (acc : List (List Nat)), acc.length + n = 15 →
      tokenize_checked (n + 1) s acc = some (acc ++ tokenize n s) := by
  induction n with
  | zero =>
    intro s acc h
    have hl : ¬ acc.length < 15 := by omega
    simp only [tokenize_checked, tokenize, hl, if_false, List.append_nil]
    split <;> rfl
  | succ n ih =>
    intro s acc h
    have hl : acc.length < 15 := by omega
    rw [tokenize_checked]
    cases hs : strtok s with
    | none => simp [tokenize, hs]
    | some tr =>
      obtain ⟨t, r⟩ := tr
      simp only [hl, if_true, pushToken, Option.some_bind]
      rw [ih r (acc ++ [t]) (by simp only [List.length_append, List.length_singleton]; omega)]
      simp [tokenize, hs]

/-- With its token reads checked, `parse_gpgga_line` never reads a token that was not
written, and computes the same result. -/
theorem parse_gpgga_line_checked_eq (rnd : ℚ → ℚ) (line : List Nat) (out : GPS_Data_t) :
    parse_gpgga_line_checked rnd line out = some (parse_gpgga_line rnd line out) := by
  have ht : tokenize_checked 16 (lineText line) [] = some (tokensOf line) := by
    rw [tokenize_checked_eq 15 (lineText line) [] (by simp)]
    rfl
  unfold parse_gpgga_line_checked parse_gpgga_line
  rw [ht]
  simp only [Option.some_bind]
  by_cases hl : (tokensOf line).length < 10
  · simp only [hl, if_true]
  · have g : ∀ k, k < 10 → (tokensOf line)[k]? = some ((tokensOf line).getD k []) := by
      intro k hk
      rw [List.getD_eq_getElem?_getD, List.getElem?_eq_getElem (by omega)]
      rfl
    simp only [hl, if_false, g 1 (by omega), g 2 (by omega), g 3 (by omega), g 4 (by omega),
      g 5 (by omega), g 6 (by omega), g 7 (by omega), g 9 (by omega), Option.some_bind]
    by_cases hq : ((if ((tokensOf line).getD 6 []).isEmpty = true then 0
        else toUInt8 (atoi ((tokensOf line).getD 6 []))) == 0) = true
    · simp only [hq, if_true]
    · simp only [hq, if_false, Bool.false_eq_true]

/-- With its accesses checked, the loop body stays inside `dma_buffer` and `line` whenever
these have their 256 bytes, and computes the same state. -/
theorem GPS_Update_step_checked_eq (rnd : ℚ → ℚ) (buf : List Nat) (s : GPS_State) (i : Nat)
    (hbuf : buf.length = 256) (hline : s.line.length = 256) :
    GPS_Update_step_checked rnd buf s i =
      some (GPS_Update_byte rnd s (buf.getD (i % 256) 0)) := by
  have hi : i % 256 < buf.length := by rw [hbuf]; exact Nat.mod_lt _ (by decide)
  have hb : buf[i % 256]? = some (buf.getD (i % 256) 0) := by
    rw [List.getD_eq_getElem?_getD, List.getElem?_eq_getElem hi]
    rfl
  have h0 : s.line[0]? = some (s.line.getD 0 0) := by
    rw [List.getD_eq_getElem?_getD, List.getElem?_eq_getElem (by omega)]
    rfl
  unfold GPS_Update_step_checked GPS_Update_byte
  simp only [GPS_BUFFER_SIZE, hb, h0, parse_gpgga_line_checked_eq]
  by_cases hc : (buf.getD (i % 256) 0 == 10) = true
  · simp only [hc, if_true]
    by_cases hp : 0 < s.line_pos
    · simp only [hp, if_true, decide_True, Bool.true_and]
      by_cases hd : (s.line.getD 0 0 == 36) = true
      · by_cases hs : strncmp_eq 6 s.line (bytes "$GPGGA") = true
        · simp only [hd, hs, if_true]
        · simp only [hd, hs, if_true, if_false, Bool.false_eq_true]
      · simp only [hd, if_false, Bool.false_eq_true]
    · simp only [hp, if_false, decide_False, Bool.false_and, Bool.false_eq_true]
  · simp only [hc, if_false, Bool.false_eq_true]
    by_cases hw : (decide (32 ≤ buf.getD (i % 256) 0) && decide (buf.getD (i % 256) 0 ≤ 126)
        && decide (s.line_pos < 256 - 1)) = true
    · have hlt : s.line_pos < s.line.length := by
        simp only [Bool.and_eq_true, decide_eq_true_eq] at hw
        omega
      simp only [hw, hlt, if_true]
    · simp only [hw, if_false, Bool.false_eq_true]

theorem GPS_Update_loop_checked_eq (rnd : ℚ → ℚ) (buf : List Nat) (hbuf : buf.length = 256)
    (is : List Nat) :
    ∀ s : GPS_State, (s.line_pos ≤ 255 ∧ s.line.length = 256 ∧ s.line.getD 255 0 = 0) →
      GPS_Update_loop_checked rnd buf s is =
        some ((is.map (fun i => buf.getD (i % GPS_BUFFER_SIZE) 0)).foldl
          (GPS_Update_byte rnd) s) := by
  induction is with
  | nil => intro s _; rfl
  | cons i is ih =>
    intro s h
    simp only [GPS_Update_loop_checked, GPS_Update_step_checked_eq rnd buf s i hbuf h.2.1,
      List.map_cons, List.foldl_cons, GPS_BUFFER_SIZE]
    exact ih _ (GPS_Update_byte_inv rnd s _ h)

theorem GPS_Update_checked_eq (rnd : ℚ → ℚ) (s : GPS_State) (buf : List Nat) (counter : Nat)
    (hbuf : buf.length = 256)
    (h : s.line_pos ≤ 255 ∧ s.line.length = 256 ∧ s.line.getD 255 0 = 0) :
    GPS_Update_checked rnd s buf counter = some (GPS_Update rnd s buf counter) := by
  unfold GPS_Update_checked GPS_Update
  simp only
  split
  · rw [GPS_Update_loop_checked_eq rnd buf hbuf _ s h]
    rfl
  · rfl

/-- The loop body writes the accumulator only at the index `line_pos`, and only when that
index is below 255. -/
theorem GPS_Update_byte_line (rnd : ℚ → ℚ) (s : GPS_State) (c : Nat) :
    (GPS_Update_byte rnd s c).line = s.line ∨
    (s.line_pos < 255 ∧ (GPS_Update_byte rnd s c).line = s.line.set s.line_pos c) := by
  unfold GPS_Update_byte
  split
  · split
    · split
      · exact Or.inl rfl
      · exact Or.inl rfl
    · exact Or.inl rfl
  · split
    · rename_i hw
      simp only [GPS_BUFFER_SIZE, Bool.and_eq_true, decide_eq_true_eq] at hw
      exact Or.inr ⟨by omega, rfl⟩
    · exact Or.inl rfl

/-- C19. Every array access is in bounds.  From every reachable state and for every content
of the 256-byte `dma_buffer`, `GPS_Update` run with its accesses to `dma_buffer` and `line`
checked never fails; the accumulator has 256 bytes, is written only at an index below 255
and keeps a zero last byte.  For every line, `parse_gpgga_line` writes at most 15 tokens and
run with its token reads checked never fails. -/
theorem array_accesses_in_bounds (rnd : ℚ → ℚ) (s : GPS_State) (dma_buffer : List Nat)
    (counter : Nat) (line : List Nat) (out : GPS_Data_t) (c : Nat)
    (hreach : Reachable rnd s) (hbuf : dma_buffer.length = 256) :
    GPS_Update_checked rnd s dma_buffer counter = some (GPS_Update rnd s dma_buffer counter) ∧
    (∀ i, i % 256 < dma_buffer.length) ∧
    s.line.length = 256 ∧ s.line_pos ≤ 255 ∧ s.line.getD 255 0 = 0 ∧
    ((GPS_Update_byte rnd s c).line = s.line ∨
      (s.line_pos < 255 ∧ (GPS_Update_byte rnd s c).line = s.line.set s.line_pos c)) ∧
    (GPS_Update rnd s dma_buffer counter).line.getD 255 0 = 0 ∧
    (tokensOf line).length ≤ 15 ∧
    parse_gpgga_line_checked rnd line out = some (parse_gpgga_line rnd line out) := by
  obtain ⟨h1, h2, h3, _⟩ := Reachable_inv rnd s hreach
  refine ⟨GPS_Update_checked_eq rnd s dma_buffer counter hbuf ⟨h1, h2, h3⟩, ?_, h2, h1, h3,
    GPS_Update_byte_line rnd s c, ?_, tokenize_length_le 15 _,
    parse_gpgga_line_checked_eq rnd line out⟩
  · intro i
    rw [hbuf]
    exact Nat.mod_lt _ (by decide)
  · exact (Reachable_inv rnd _ (Reachable.update s dma_buffer counter hreach)).2.2.1

/-- Witness of C19: the state reached after three bytes have been read, and the example
sentence. -/
theorem array_accesses_in_bounds_witness :
    GPS_Update_checked (fun y => y) afterAbc (placeAt 0 (exampleLine ++ [10])) (256 - 66)
      = some (GPS_Update (fun y => y) afterAbc (placeAt 0 (exampleLine ++ [10])) (256 - 66)) ∧
    (∀ i, i % 256 < (placeAt 0 (exampleLine ++ [10])).length) ∧
    afterAbc.line.length = 256 ∧ afterAbc.line_pos ≤ 255 ∧ afterAbc.line.getD 255 0 = 0 ∧
    ((GPS_Update_byte (fun y => y) afterAbc 65).line = afterAbc.line ∨
      (afterAbc.line_pos < 255 ∧
        (GPS_Update_byte (fun y => y) afterAbc 65).line
          = afterAbc.line.set afterAbc.line_pos 65)) ∧
    (GPS_Update (fun y => y) afterAbc (placeAt 0 (exampleLine ++ [10]))
      (256 - 66)).line.getD 255 0 = 0 ∧
    (tokensOf exampleLine).length ≤ 15 ∧
    parse_gpgga_line_checked (fun y => y) exampleLine GPS_Data_t.zero
      = some (parse_gpgga_line (fun y => y) exampleLine GPS_Data_t.zero) :=
  array_accesses_in_bounds (fun y => y) afterAbc (placeAt 0 (exampleLine ++ [10])) (256 - 66)
    exampleLine GPS_Data_t.zero 65
    (Reachable.update GPS_State.startup (placeAt 0 (bytes "abc")) (256 - 3) Reachable.startup)
    (by decide)

/-! ### Coordinate round trip -/

theorem fixedDigits_length (w n : Nat) : (fixedDigits w n).length = w := by
  induction w with
  | zero => rfl
  | succ w ih => simp [fixedDigits, ih]

theorem fixedDigits_isdigit (w n : Nat) : ∀ d, d ∈ fixedDigits w n → isdigit d = true := by
  induction w with
  | zero => intro d h; simp [fixedDigits] at h
  | succ w ih =>
    intro d h
    simp only [fixedDigits, List.mem_cons] at h
    rcases h with h | h
    · subst h
      simp only [isdigit, Bool.and_eq_true, decide_eq_true_eq]
      omega
    · exact ih d h

theorem foldl_fixedDigits (w n : Nat) :
    ∀ a : Nat, (fixedDigits w n).foldl (fun a d => 10 * a + (d - 48)) a
      = a * 10 ^ w + n % 10 ^ w := by
  induction w with
  | zero => intro a; simp [fixedDigits, Nat.mod_one]
  | succ w ih =>
    intro a
    simp only [fixedDigits, List.foldl_cons, ih]
    rw [Nat.mod_pow_succ]
    have : 48 + n / 10 ^ w % 10 - 48 = n / 10 ^ w % 10 := by omega
    rw [this]
    ring

theorem digitsVal_append (a b : List Nat) :
    digitsVal (a ++ b) = digitsVal a * 10 ^ b.length + digitsVal b := by
  induction b using List.reverseRecOn with
  | nil => simp [digitsVal]
  | append_singleton b d ih =>
    rw [← List.append_assoc]
    simp only [digitsVal, List.foldl_append, List.foldl_cons, List.foldl_nil,
      List.length_append, List.length_singleton] at ih ⊢
    rw [ih]
    ring

theorem digitsVal_fixedDigits (w n : Nat) : digitsVal (fixedDigits w n) = n % 10 ^ w := by
  simp [digitsVal, foldl_fixedDigits]

/-- The scan of an encoded coordinate: no sign, the digits of both parts, `p` fractional
digits, no exponent. -/
theorem scanDecimal_encodeDDMM (w p D m : Nat) :
    scanDecimal (encodeDDMM w p D m) =
      (false, fixedDigits w (100 * D + m / 10 ^ p) ++ fixedDigits p (m % 10 ^ p), p, 0) := by
  set ds := fixedDigits w (100 * D + m / 10 ^ p) with hds
  set fs := fixedDigits p (m % 10 ^ p) with hfs
  have hd : ∀ d, d ∈ ds → isdigit d = true := fixedDigits_isdigit _ _
  have hf : ∀ d, d ∈ fs → isdigit d = true := fixedDigits_isdigit _ _
  have hsp : (ds ++ 46 :: fs).dropWhile isspace = ds ++ 46 :: fs := by
    cases hc : ds with
    | nil => simp [List.dropWhile, isspace]
    | cons c l =>
      have h1 := hd c (by rw [hc]; simp)
      simp only [isdigit, Bool.and_eq_true, decide_eq_true_eq] at h1
      have h2 : isspace c = false := by
        simp only [isspace, Bool.or_eq_false_iff, beq_eq_false_iff_ne, ne_eq,
          Bool.and_eq_false_imp, decide_eq_true_eq, decide_eq_false_iff_not]
        omega
      simp [List.dropWhile, h2]
  have hsg : takeSign (ds ++ 46 :: fs) = (false, ds ++ 46 :: fs) := by
    cases hc : ds with
    | nil => simp [takeSign]
    | cons c l =>
      have h1 := hd c (by rw [hc]; simp)
      simp only [isdigit, Bool.and_eq_true, decide_eq_true_eq] at h1
      simp only [List.cons_append]
      unfold takeSign
      split
      · rename_i heq
        simp only [List.cons.injEq] at heq
        omega
      · rename_i heq
        simp only [List.cons.injEq] at heq
        omega
      · rfl
  have h46 : isdigit 46 = false := by decide
  have htw : (ds ++ 46 :: fs).takeWhile isdigit = ds := by
    rw [List.takeWhile_append_of_pos hd]
    simp [List.takeWhile, h46]
  have hdw : (ds ++ 46 :: fs).dropWhile isdigit = 46 :: fs := by
    rw [List.dropWhile_append_of_pos hd]
    simp [List.dropWhile, h46]
  have hft : fs.takeWhile isdigit = fs := List.takeWhile_eq_self_iff.mpr hf
  have hfd : fs.dropWhile isdigit = [] := List.dropWhile_eq_nil_iff.mpr hf
  have hlen : fs.length = p := fixedDigits_length _ _
  simp only [scanDecimal, encodeDDMM, ← hds, ← hfs, hsp, hsg, htw, hdw, hft, hfd, hlen,
    decExponent]

/-- The value read from an encoded coordinate is the number encoded. -/
theorem decimalValue_encodeDDMM (w p D m : Nat) (hw : 100 * D + m / 10 ^ p < 10 ^ w) :
    decimalValue (encodeDDMM w p D m) = 100 * (D : ℚ) + (m : ℚ) / 10 ^ p := by
  have hp : (0 : ℚ) < 10 ^ p := by positivity
  have hv : digitsVal (fixedDigits w (100 * D + m / 10 ^ p) ++ fixedDigits p (m % 10 ^ p))
      = 100 * D * 10 ^ p + m := by
    rw [digitsVal_append, digitsVal_fixedDigits, digitsVal_fixedDigits, fixedDigits_length,
      Nat.mod_eq_of_lt hw, Nat.mod_mod]
    have := Nat.div_add_mod m (10 ^ p)
    nlinarith [this]
  simp only [decimalValue, scanDecimal_encodeDDMM, hv, le_refl, if_true, Int.toNat_zero,
    pow_zero, mul_one, Bool.false_eq_true, if_false]
  split
  · rename_i he
    have he' : fixedDigits w (100 * D + m / 10 ^ p) ++ fixedDigits p (m % 10 ^ p) = [] := by
      simpa using he
    have hv0 : 100 * D * 10 ^ p + m = 0 := by rw [← hv, he']; rfl
    have hD : D = 0 := by
      by_contra hne
      have hD0 : 0 < D := Nat.pos_of_ne_zero hne
      have : 0 < 100 * D * 10 ^ p := by positivity
      omega
    have hm : m = 0 := by omega
    subst hD hm
    simp
  · push_cast
    field_simp

/-- A rounding of relative error at most `2 ^ (-e)` moves a value of `[lo, hi]`, `0 ≤ lo`, by
at most `hi / 2 ^ e`. -/
theorem rnd_near_pow {rnd : ℚ → ℚ} (e : Nat) (hr : ∀ x, |rnd x - x| ≤ |x| / 2 ^ e)
    (x lo hi : ℚ) (h0 : 0 ≤ lo) (h1 : lo ≤ x) (h2 : x ≤ hi) :
    x - hi / 2 ^ e ≤ rnd x ∧ rnd x ≤ x + hi / 2 ^ e := by
  have hx : |x| = x := abs_of_nonneg (le_trans h0 h1)
  have h := hr x
  rw [hx] at h
  have hle : x / 2 ^ e ≤ hi / 2 ^ e := by
    apply div_le_div_of_nonneg_right h2
    positivity
  have h' := abs_le.mp (le_trans h hle)
  constructor <;> linarith [h'.1, h'.2]

/-- In exact arithmetic the coordinate decode of a text of value `100 D + M`, `0 ≤ M < 60`,
with `D` small enough for `degrees * 100` to fit an `int`, finds `D` degrees and `M` minutes
and returns `D + M / 60`. -/
theorem parse_lat_lon_exact (str : List Nat) (hne : str.isEmpty = false) (D : Nat) (M : ℚ)
    (hD : D ≤ 21474836) (hM0 : 0 ≤ M) (hM : M < 60)
    (hv : decimalValue str = 100 * (D : ℚ) + M) :
    doubleToInt (decimalValue str / 100) = (D : Int) ∧
    wrapInt32 ((D : Int) * 100) = (D : Int) * 100 ∧
    decimalValue str - ((D : Int) * 100 : Int) = M ∧
    parse_lat_lon (fun y => y) str = (D : ℚ) + M / 60 := by
  have hD0 : (0 : ℚ) ≤ D := Nat.cast_nonneg D
  have hdeg : doubleToInt (decimalValue str / 100) = (D : Int) := by
    rw [hv]
    apply doubleToInt_eq
    · positivity
    · push_cast; linarith
    · push_cast; linarith
    · omega
    · omega
  have hwrap : wrapInt32 ((D : Int) * 100) = (D : Int) * 100 :=
    wrapInt32_eq _ (by omega) (by omega)
  refine ⟨hdeg, hwrap, by rw [hv]; push_cast; ring, ?_⟩
  simp only [parse_lat_lon, hne, atof, Bool.false_eq_true, if_false, hdeg, hwrap]
  rw [hv]
  push_cast
  ring

/-- In floating point the coordinate decode of a text of value `100 D + M`, `0 ≤ M < 60`,
with `D` small enough for `degrees * 100` to fit an `int`, is within `10⁻⁶` of `D + M / 60`.
The rounding is any monotone function of relative error at most `2⁻⁵³` that is exact on the
integers up to `2⁵³`, as IEEE `double` rounding to nearest is. -/
theorem parse_lat_lon_double (rnd : ℚ → ℚ) (hr : ∀ x, |rnd x - x| ≤ |x| / 2 ^ 53)
    (hmono : ∀ x y, x ≤ y → rnd x ≤ rnd y)
    (hint : ∀ n : Int, |n| ≤ 2 ^ 53 → rnd (n : ℚ) = (n : ℚ))
    (str : List Nat) (hne : str.isEmpty = false) (D : Nat) (M : ℚ) (hD : D ≤ 21474836)
    (hM0 : 0 ≤ M) (hM : M < 60) (hv : decimalValue str = 100 * (D : ℚ) + M) :
    |parse_lat_lon rnd str - ((D : ℚ) + M / 60)| ≤ 1 / 10 ^ 6 := by
  have hD0 : (0 : ℚ) ≤ D := Nat.cast_nonneg D
  have hDq : (D : ℚ) ≤ 21474836 := by exact_mod_cast hD
  have hDz : (D : Int) ≤ 21474836 := by exact_mod_cast hD
  have hDz0 : (0 : Int) ≤ D := Int.natCast_nonneg D
  have r0 : rnd 0 = 0 := by
    have := hint 0 (by norm_num)
    simpa using this
  have rD : rnd (D : ℚ) = D := by
    have := hint (D : Int) (by rw [abs_of_nonneg hDz0]; norm_num; omega)
    simpa using this
  have r100 : rnd (100 * (D : ℚ)) = 100 * D := by
    have := hint (100 * (D : Int)) (by
      rw [abs_of_nonneg (by omega)]; norm_num; omega)
    push_cast at this
    exact this
  set v := decimalValue str with hvdef
  -- val = atof(str)
  obtain ⟨a1, a2⟩ := rnd_near_pow 53 hr v 0 2147483660 le_rfl (by linarith) (by linarith)
  have a3 : 100 * (D : ℚ) ≤ rnd v := by
    have := hmono (100 * (D : ℚ)) v (by linarith)
    rw [r100] at this
    exact this
  set val := rnd v with hval
  -- (int)(val / 100)
  obtain ⟨b1, b2⟩ := rnd_near_pow 53 hr (val / 100) 0 21474838 le_rfl
    (by linarith) (by norm_num at a2 ⊢; linarith)
  have b3 : (D : ℚ) ≤ rnd (val / 100) := by
    have := hmono (D : ℚ) (val / 100) (by linarith)
    rw [rD] at this
    exact this
  have hdeg : doubleToInt (rnd (val / 100)) = (D : Int) := by
    apply doubleToInt_eq
    · linarith
    · exact_mod_cast b3
    · push_cast
      norm_num at a2 b2 ⊢
      linarith
    · omega
    · omega
  have hwrap : wrapInt32 ((D : Int) * 100) = (D : Int) * 100 :=
    wrapInt32_eq _ (by omega) (by omega)
  -- minutes
  have hx0 : 0 ≤ val - (((D : Int) * 100 : Int) : ℚ) := by push_cast; linarith
  obtain ⟨c1, c2⟩ := rnd_near_pow 53 hr (val - (((D : Int) * 100 : Int) : ℚ)) 0 61 le_rfl hx0
    (by push_cast; norm_num at a2 ⊢; linarith)
  have c3 : 0 ≤ rnd (val - (((D : Int) * 100 : Int) : ℚ)) := by
    have := hmono 0 _ hx0
    rw [r0] at this
    exact this
  set minutes := rnd (val - (((D : Int) * 100 : Int) : ℚ)) with hmin
  -- minutes / 60
  obtain ⟨e1, e2⟩ := rnd_near_pow 53 hr (minutes / 60) 0 2 le_rfl (by linarith)
    (by push_cast at c2; norm_num at a2 c2 ⊢; linarith)
  have e3 : 0 ≤ rnd (minutes / 60) := by
    have := hmono 0 (minutes / 60) (by linarith)
    rw [r0] at this
    exact this
  set m60 := rnd (minutes / 60) with hm60
  -- degrees + minutes / 60
  obtain ⟨f1, f2⟩ := rnd_near_pow 53 hr ((D : ℚ) + m60) 0 21474839 le_rfl (by linarith)
    (by push_cast at c2; norm_num at a2 c2 e2 ⊢; linarith)
  have hres : parse_lat_lon rnd str = rnd ((D : ℚ) + m60) := by
    simp only [parse_lat_lon, hne, atof, ← hvdef, ← hval, hdeg, hwrap]
    simp [hmin, hm60]
  rw [hres, abs_le]
  push_cast at c1 c2
  norm_num at a1 a2 c1 c2 e1 e2 f1 f2 ⊢
  constructor <;> linarith

theorem encodeDDMM_ne_nil (w p D m : Nat) : (encodeDDMM w p D m).isEmpty = false := by
  unfold encodeDDMM
  cases fixedDigits w (100 * D + m / 10 ^ p) <;> rfl

/-- Counterexample to C12 as stated: 21474837 degrees and 59.5 minutes are encoded as
`2147483759.5`.  The cast gives `degrees = 21474837`, which fits an `int`, but the product
`degrees * 100 = 2147483700` does not: it wraps to `-2147483596`, the minutes come out as
`4294967355.5`, and the result, about 93057626.26, is not `21474837 + 59.5 / 60`. -/
theorem parse_lat_lon_int_overflow :
    encodeDDMM 10 1 21474837 595 = bytes "2147483759.5" ∧
    595 < 60 * 10 ^ 1 ∧
    decimalValue (bytes "2147483759.5") = 100 * (21474837 : ℚ) + 595 / 10 ∧
    doubleToInt (21474837595 / 10 / 100) = 21474837 ∧
    wrapInt32 (21474837 * 100) = -2147483596 ∧
    parse_lat_lon (fun y => y) (bytes "2147483759.5")
      = (21474837 : ℚ) + (42949673555 / 10) / 60 ∧
    parse_lat_lon (fun y => y) (encodeDDMM 10 1 21474837 595)
      ≠ (21474837 : ℚ) + (595 / 10) / 60 ∧
    1 / 10 ^ 6 < |parse_lat_lon (fun y => y) (encodeDDMM 10 1 21474837 595)
      - ((21474837 : ℚ) + (595 / 10) / 60)| := by
  have h0 : encodeDDMM 10 1 21474837 595 = bytes "2147483759.5" := by decide
  have hs : scanDecimal (bytes "2147483759.5") = (false, bytes "21474837595", 1, 0) := by
    decide
  have hd : digitsVal (bytes "21474837595") = 21474837595 := by decide
  have hne : (bytes "2147483759.5").isEmpty = false := by decide
  have hv : decimalValue (bytes "2147483759.5") = 21474837595 / 10 := by
    simp only [decimalValue, hs, hd]
    norm_num [bytes]
  have hdeg : doubleToInt (21474837595 / 10 / 100) = 21474837 := by
    apply doubleToInt_eq <;> norm_num
  have hwrap : wrapInt32 (21474837 * 100) = -2147483596 := by decide
  have hp : parse_lat_lon (fun y => y) (bytes "2147483759.5")
      = (21474837 : ℚ) + (42949673555 / 10) / 60 := by
    simp only [parse_lat_lon, hne, atof, hv, Bool.false_eq_true, if_false, hdeg, hwrap]
    norm_num
  refine ⟨h0, by norm_num, by rw [hv]; norm_num, hdeg, hwrap, hp, ?_, ?_⟩
  · rw [h0, hp]
    norm_num
  · rw [h0, hp]
    norm_num [abs_of_pos]

/-- C12, amended. Coordinate round trip. For every degree count `D` with
`0 ≤ D ≤ 21474836`, the range in which `degrees * 100` fits the 32-bit `int` of the source,
and every minutes value `M = m / 10 ^ p` with `0 ≤ M < 60`, the coordinate decode of the
decimal text of `100 D + M` finds `D` degrees (the integer division of the value by 100) and
`M` minutes (the remainder) and returns `D + M / 60`: exactly in rational arithmetic, and
within `10⁻⁶` in floating point (any monotone rounding of relative error at most `2⁻⁵³` that
is exact on the integers up to `2⁵³`, as IEEE `double` rounding to nearest is). -/
theorem parse_lat_lon_round_trip (w p D m : Nat) (hD : D ≤ 21474836) (hm : m < 60 * 10 ^ p)
    (hw : 100 * D + m / 10 ^ p < 10 ^ w) :
    decimalValue (encodeDDMM w p D m) = 100 * (D : ℚ) + (m : ℚ) / 10 ^ p ∧
    doubleToInt (decimalValue (encodeDDMM w p D m) / 100) = (D : Int) ∧
    wrapInt32 ((D : Int) * 100) = (D : Int) * 100 ∧
    decimalValue (encodeDDMM w p D m) - ((D : Int) * 100 : Int) = (m : ℚ) / 10 ^ p ∧
    parse_lat_lon (fun y => y) (encodeDDMM w p D m) = (D : ℚ) + ((m : ℚ) / 10 ^ p) / 60 ∧
    (∀ rnd : ℚ → ℚ, (∀ x, |rnd x - x| ≤ |x| / 2 ^ 53) →
      (∀ x y, x ≤ y → rnd x ≤ rnd y) →
      (∀ n : Int, |n| ≤ 2 ^ 53 → rnd (n : ℚ) = (n : ℚ)) →
      |parse_lat_lon rnd (encodeDDMM w p D m) - ((D : ℚ) + ((m : ℚ) / 10 ^ p) / 60)|
        ≤ 1 / 10 ^ 6) := by
  have hp : (0 : ℚ) < 10 ^ p := by positivity
  have hM0 : (0 : ℚ) ≤ (m : ℚ) / 10 ^ p := by positivity
  have hM : (m : ℚ) / 10 ^ p < 60 := by
    rw [div_lt_iff₀ hp]
    exact_mod_cast hm
  have hv := decimalValue_encodeDDMM w p D m hw
  have hne := encodeDDMM_ne_nil w p D m
  obtain ⟨x1, x2, x3, x4⟩ := parse_lat_lon_exact _ hne D _ hD hM0 hM hv
  refine ⟨hv, x1, x2, x3, x4, ?_⟩
  intro rnd hr hmono hint
  exact parse_lat_lon_double rnd hr hmono hint _ hne D _ hD hM0 hM hv

/-- Witness of C12 amended: 48 degrees and 7.0380 minutes, encoded as `4807.0380`, decoded in
exact arithmetic. -/
theorem parse_lat_lon_round_trip_witness :
    encodeDDMM 4 4 48 70380 = bytes "4807.0380" ∧
    decimalValue (encodeDDMM 4 4 48 70380)
      = 100 * ((48 : Nat) : ℚ) + ((70380 : Nat) : ℚ) / 10 ^ 4 ∧
    doubleToInt (decimalValue (encodeDDMM 4 4 48 70380) / 100) = ((48 : Nat) : Int) ∧
    parse_lat_lon (fun y => y) (encodeDDMM 4 4 48 70380)
      = ((48 : Nat) : ℚ) + (((70380 : Nat) : ℚ) / 10 ^ 4) / 60 ∧
    |parse_lat_lon (fun y => y) (encodeDDMM 4 4 48 70380)
      - (((48 : Nat) : ℚ) + (((70380 : Nat) : ℚ) / 10 ^ 4) / 60)| ≤ 1 / 10 ^ 6 :=
  ⟨by decide,
   (parse_lat_lon_round_trip 4 4 48 70380 (by norm_num) (by norm_num) (by norm_num)).1,
   (parse_lat_lon_round_trip 4 4 48 70380 (by norm_num) (by norm_num) (by norm_num)).2.1,
   (parse_lat_lon_round_trip 4 4 48 70380 (by norm_num) (by norm_num)
     (by norm_num)).2.2.2.2.1,
   (parse_lat_lon_round_trip 4 4 48 70380 (by norm_num) (by norm_num)
     (by norm_num)).2.2.2.2.2
     (fun y => y) (fun x => by simp; positivity) (fun _ _ h => h) (fun _ _ => rfl)⟩

/-! ### Absent hemisphere field -/

/-- C13, the code at the failing input. In the sentence `absentSignLine` the latitude field
is `4830`, whose coordinate decode is 48.5, and the hemisphere field after it is absent.
The function `strtok` skips the empty field, so token 3 is the next field `S0930`, which
starts with `S`: the call succeeds and writes the latitude -48.5, where an absent sign is to
leave the decoded coordinate as it is. -/
theorem parse_gpgga_line_absent_sign :
    (fieldsOf (lineText absentSignLine)).getD 2 [] = bytes "4830" ∧
    (fieldsOf (lineText absentSignLine)).getD 3 [] = [] ∧
    parse_lat_lon (fun y => y) (bytes "4830") = 48 + 30 / 60 ∧
    tokensOf absentSignLine =
      [bytes "$GPGGA", bytes "1", bytes "4830", bytes "S0930", bytes "E", bytes "1",
       bytes "3", bytes "4", bytes "5.5", bytes "x"] ∧
    (parse_gpgga_line (fun y => y) absentSignLine GPS_Data_t.zero).1 = true ∧
    (parse_gpgga_line (fun y => y) absentSignLine GPS_Data_t.zero).2.latitude
      = -(48 + 30 / 60) := by
  have ht : tokensOf absentSignLine =
      [bytes "$GPGGA", bytes "1", bytes "4830", bytes "S0930", bytes "E", bytes "1",
       bytes "3", bytes "4", bytes "5.5", bytes "x"] := by decide
  have hs : scanDecimal (bytes "4830") = (false, bytes "4830", 0, 0) := by decide
  have hd : digitsVal (bytes "4830") = 4830 := by decide
  have hv : decimalValue (bytes "4830") = 100 * ((48 : Nat) : ℚ) + 30 := by
    simp only [decimalValue, hs, hd]
    norm_num [bytes]
  have hlat : parse_lat_lon (fun y => y) (bytes "4830") = 48 + 30 / 60 := by
    have := (parse_lat_lon_exact (bytes "4830") (by decide) 48 30 (by norm_num)
      (by norm_num) (by norm_num) hv).2.2.2
    rw [this]
    norm_num
  have h6 : toUInt8 (atoi (bytes "3")) = 3 := by decide
  have e6 : (bytes "3").isEmpty = false := by decide
  have e3 : ((bytes "S0930").head? == some 83) = true := by decide
  refine ⟨by decide, by decide, hlat, ht, ?_, ?_⟩
  · simp [parse_gpgga_line, ht, h6, e6]
  · simp only [parse_gpgga_line, ht]
    simp [h6, e6, e3, hlat]

end HAL_GPS
